import Mathlib

/-!
Chat server (`server.go`): lobby, chat rooms and clients.

A shallow embedding of the server's state and of the methods of `Lobby`,
`ChatRoom`, `Client` and `Message`.

* Go pointers `*Client` and `*ChatRoom` are addresses (`Nat`) into two object
  stores kept in the state; `nil` is `none`.
* A client's `outgoing` channel is the list of the strings sent on it so far
  (oldest first). `close(client.outgoing)` and `conn.Close()` set a flag.
* The methods are given twice. First as the assignments they make when
  every send is received; then, under `Blocking`, with the goroutine
  `Client.Write` that receives from the unbuffered channel, where a method
  can be blocked for ever in a send. A method of the second kind that
  returns leaves the state the first kind computes (`event_refines`).
* Every `time.Now()` is an explicit clock reading (nanoseconds) handed to the
  method that performs the call.
* The goroutines that sleep and then send on `lobby.delete` are the list of
  pending wake-ups of the state.
* The methods run one at a time: a call of `Lobby.Join` by `main` and the
  cases of the `select` in `Lobby.Listen` are the events of a step function.
-/

namespace ChatServer

/-! ## Constants -/

def MAX_CLIENTS : Nat := 10

def CMD_PREFIX : String := "/"
def CMD_CREATE : String := CMD_PREFIX ++ "create"
def CMD_LIST : String := CMD_PREFIX ++ "list"
def CMD_JOIN : String := CMD_PREFIX ++ "join"
def CMD_LEAVE : String := CMD_PREFIX ++ "leave"
def CMD_HELP : String := CMD_PREFIX ++ "help"
def CMD_NAME : String := CMD_PREFIX ++ "name"
def CMD_QUIT : String := CMD_PREFIX ++ "quit"

def CLIENT_NAME : String := "Anonymous"
def SERVER_NAME : String := "Server"

def ERROR_PREFIX : String := "Error: "
def ERROR_SEND : String := ERROR_PREFIX ++ "You cannot send messages in the lobby.\n"
def ERROR_CREATE : String := ERROR_PREFIX ++ "A chat room with that name already exists.\n"
def ERROR_JOIN : String := ERROR_PREFIX ++ "A chat room with that name does not exist.\n"
def ERROR_LEAVE : String := ERROR_PREFIX ++ "You cannot leave the lobby.\n"

def NOTICE_PREFIX : String := "Notice: "
def NOTICE_ROOM_JOIN : String := NOTICE_PREFIX ++ "\"%s\" joined the chat room.\n"
def NOTICE_ROOM_LEAVE : String := NOTICE_PREFIX ++ "\"%s\" left the chat room.\n"
def NOTICE_ROOM_NAME : String := NOTICE_PREFIX ++ "\"%s\" changed their name to \"%s\".\n"
def NOTICE_ROOM_DELETE : String := NOTICE_PREFIX ++ "Chat room is inactive and being deleted.\n"
def NOTICE_PERSONAL_CREATE : String := NOTICE_PREFIX ++ "Created chat room \"%s\".\n"
def NOTICE_PERSONAL_NAME : String := NOTICE_PREFIX ++ "Changed name to \"\".\n"

def MSG_CONNECT : String := "Welcome to the server! Type \"/help\" to get a list of commands.\n"
def MSG_FULL : String := "Server is full. Please try reconnecting later."

/-- Go's `time.Minute`, in nanoseconds. -/
def Minute : Nat := 60 * 1000000000

/-- Go's `time.Hour`, in nanoseconds. -/
def Hour : Nat := 60 * Minute

def EXPIRY_TIME : Nat := 7 * 24 * Hour

/-! ## Library functions used by the server -/

/-- Go's `strings.HasPrefix`. -/
def HasPrefix (s p : String) : Bool := p.data.isPrefixOf s.data

/-- Go's `strings.TrimPrefix`: `s` without the leading `p`, or `s` itself. -/
def TrimPrefix (s p : String) : String :=
  if HasPrefix s p then String.mk (s.data.drop p.data.length) else s

/-- Go's `strings.HasSuffix`. -/
def HasSuffix (s p : String) : Bool := p.data.isSuffixOf s.data

/-- Go's `strings.TrimSuffix`: `s` without the trailing `p`, or `s` itself. -/
def TrimSuffix (s p : String) : String :=
  if HasSuffix s p then String.mk (s.data.take (s.data.length - p.data.length)) else s

/-- The text `fmt` prints for operands left over after the format is used up:
`string=a, string=b`. -/
def extraOperands : List String → List Char
  | [] => []
  | [a] => "string=".data ++ a.data
  | a :: rest => "string=".data ++ a.data ++ ", ".data ++ extraOperands rest

/-- The formatting loop of `fmt.Sprintf` for string operands. `%s` and `%v`
print the next operand, `%%` prints a percent sign; a verb with no operand
left prints `%!verb(MISSING)`, a percent sign ending the format prints
`%!(NOVERB)`, any other verb prints `%!verb(string=operand)`, and operands
left at the end are reported as `%!(EXTRA string=...)`. Flags and widths,
which no format of the server uses, are not modelled. -/
def sprintfLoop : List Char → List String → List Char
  | [], [] => []
  | [], a :: args => "%!(EXTRA ".data ++ extraOperands (a :: args) ++ [')']
  | ch :: rest, args =>
    if ch = '%' then
      match rest, args with
      | [], _ => "%!(NOVERB)".data
      | verb :: rest', [] =>
        if verb = '%' then '%' :: sprintfLoop rest' []
        else "%!".data ++ [verb] ++ "(MISSING)".data ++ sprintfLoop rest' []
      | verb :: rest', a :: args' =>
        if verb = '%' then '%' :: sprintfLoop rest' (a :: args')
        else if verb = 's' ∨ verb = 'v' then a.data ++ sprintfLoop rest' args'
        else "%!".data ++ [verb] ++ "(string=".data ++ a.data ++ [')'] ++ sprintfLoop rest' args'
    else ch :: sprintfLoop rest args

/-- Go's `fmt.Sprintf` applied to string operands. -/
def Sprintf (format : String) (args : List String) : String :=
  String.mk (sprintfLoop format.data args)

/-- The decimal digit of `n % 10`. -/
def digit (n : Nat) : Char := Char.ofNat (48 + n % 10)

/-- Go's `t.Format(time.Kitchen)` (layout `3:04PM`) for the instant `t`, given
in nanoseconds since a local midnight. -/
def Kitchen (t : Nat) : String :=
  let h := (t / Hour) % 24
  let m := (t / Minute) % 60
  let h12 := if h % 12 = 0 then 12 else h % 12
  String.mk ((if h12 < 10 then [digit h12] else [digit (h12 / 10), digit h12])
    ++ [':', digit (m / 10), digit m]
    ++ (if h < 12 then ['A', 'M'] else ['P', 'M']))

/-! ## Data model -/

/-- The address of a `Client` object. -/
abbrev ClientId := Nat

/-- The address of a `ChatRoom` object. -/
abbrev RoomId := Nat

/-- The struct `Client`. `outgoing` lists the strings sent on the channel so
far, `outgoingClosed` records `close(client.outgoing)` and `connClosed`
records `client.conn.Close()`. The channel `incoming` only feeds the `Parse`
events; the reader and writer carry no state of their own. -/
structure Client where
  name : String
  chatRoom : Option RoomId
  outgoing : List String
  outgoingClosed : Bool
  connClosed : Bool
deriving DecidableEq

/-- The struct `ChatRoom`. `refreshedAt` is an observation that the source
does not store: the clock reading from which `expiry` was last computed. No
method reads it. -/
structure ChatRoom where
  name : String
  clients : List ClientId
  messages : List String
  expiry : Nat
  refreshedAt : Nat
deriving DecidableEq

/-- The struct `Message`. -/
structure Message where
  time : Nat
  client : ClientId
  text : String
deriving DecidableEq

/-- The registries of the struct `Lobby`. The Go map `chatRooms` is an
association list with at most one entry for a name. -/
structure Lobby where
  clients : List ClientId
  chatRooms : List (String × RoomId)
deriving DecidableEq

/-- The state of the server: the lobby, the two object stores with their
allocation counters, and the pending wake-ups `(deadline, chatRoom)` of the
goroutines that sleep before sending `chatRoom` on `lobby.delete`. -/
structure State where
  lobby : Lobby
  client : ClientId → Client
  room : RoomId → ChatRoom
  nextClient : Nat
  nextRoom : Nat
  wakeups : List (Nat × RoomId)

/-- The map read `m[name]`; `none` is the `nil` a missing key yields. -/
def mapGet (m : List (String × RoomId)) (name : String) : Option RoomId :=
  m.lookup name

/-- The map write `m[name] = chatRoom`. -/
def mapSet (m : List (String × RoomId)) (name : String) (chatRoom : RoomId) :
    List (String × RoomId) :=
  m.filter (fun e => e.1 ≠ name) ++ [(name, chatRoom)]

/-- The builtin `delete(m, name)`. -/
def mapDelete (m : List (String × RoomId)) (name : String) : List (String × RoomId) :=
  m.filter (fun e => e.1 ≠ name)

/-- The keys of a map. -/
def mapKeys (m : List (String × RoomId)) : List String := m.map Prod.fst

/-- The channel send `client.outgoing <- message`, once the writer goroutine
of the client has received it; `Blocking.send` says when it does. -/
def send (s : State) (client : ClientId) (message : String) : State :=
  { s with
    client := Function.update s.client client
      { s.client client with outgoing := (s.client client).outgoing ++ [message] } }

/-- The assignment `client.chatRoom = chatRoom`. -/
def setChatRoom (s : State) (client : ClientId) (chatRoom : Option RoomId) : State :=
  { s with
    client := Function.update s.client client { s.client client with chatRoom := chatRoom } }

/-- The object `NewChatRoom(name)` builds when `time.Now()` reads `now`. -/
def NewChatRoom (name : String) (now : Nat) : ChatRoom :=
  { name := name, clients := [], messages := [], expiry := now + EXPIRY_TIME,
    refreshedAt := now }

/-- The object `NewClient(conn)` builds. -/
def NewClient : Client :=
  { name := CLIENT_NAME, chatRoom := none, outgoing := [], outgoingClosed := false,
    connClosed := false }

/-- The state `NewLobby()` starts from: no clients, no chat rooms, nothing
allocated and nothing scheduled. -/
def NewLobby : State :=
  { lobby := { clients := [], chatRooms := [] },
    client := fun _ => NewClient,
    room := fun _ => NewChatRoom "" 0,
    nextClient := 0, nextRoom := 0, wakeups := [] }

/-! ## Methods of `Client` and `Message` -/

/-- Method `Client.Quit`: closes the connection. -/
def Client.Quit (s : State) (client : ClientId) : State :=
  { s with
    client := Function.update s.client client { s.client client with connClosed := true } }

/-- Method `Message.String`: the sender's name is read when the message is rendered. -/
def Message.String (s : State) (message : Message) : String :=
  Sprintf "%s - %s: %s\n" [Kitchen message.time, (s.client message.client).name, message.text]

/-! ## Methods of `ChatRoom` -/

/-- Method `ChatRoom.Broadcast` with `time.Now()` reading `now`. -/
def ChatRoom.Broadcast (s : State) (chatRoom : RoomId) (message : String) (now : Nat) :
    State :=
  let s1 : State := { s with
    room := Function.update s.room chatRoom
      { s.room chatRoom with
        expiry := now + EXPIRY_TIME
        refreshedAt := now
        messages := (s.room chatRoom).messages ++ [message] } }
  (s1.room chatRoom).clients.foldl (fun st client => send st client message) s1

/-- Method `ChatRoom.Join`. -/
def ChatRoom.Join (s : State) (chatRoom : RoomId) (client : ClientId) (now : Nat) : State :=
  let s1 := setChatRoom s client (some chatRoom)
  let s2 := (s1.room chatRoom).messages.foldl (fun st message => send st client message) s1
  let s3 : State := { s2 with
    room := Function.update s2.room chatRoom
      { s2.room chatRoom with clients := (s2.room chatRoom).clients ++ [client] } }
  ChatRoom.Broadcast s3 chatRoom (Sprintf NOTICE_ROOM_JOIN [(s3.client client).name]) now

/-- Method `ChatRoom.Leave`: the loop removes the first occurrence of `client`. -/
def ChatRoom.Leave (s : State) (chatRoom : RoomId) (client : ClientId) (now : Nat) : State :=
  let s1 := ChatRoom.Broadcast s chatRoom (Sprintf NOTICE_ROOM_LEAVE [(s.client client).name]) now
  let s2 : State := { s1 with
    room := Function.update s1.room chatRoom
      { s1.room chatRoom with clients := (s1.room chatRoom).clients.erase client } }
  setChatRoom s2 client none

/-- Method `ChatRoom.Delete`. -/
def ChatRoom.Delete (s : State) (chatRoom : RoomId) (now : Nat) : State :=
  let s1 := ChatRoom.Broadcast s chatRoom NOTICE_ROOM_DELETE now
  (s1.room chatRoom).clients.foldl (fun st client => setChatRoom st client none) s1

/-! ## Methods of `Lobby` -/

/-- Method `Lobby.Join`. The goroutine it starts relays the client's messages as
`Parse` events and ends with a `Leave` event. -/
def Lobby.Join (s : State) (client : ClientId) : State :=
  if s.lobby.clients.length ≥ MAX_CLIENTS then
    Client.Quit s client
  else
    send { s with lobby := { s.lobby with clients := s.lobby.clients ++ [client] } }
      client MSG_CONNECT

/-- Method `Lobby.Leave`. -/
def Lobby.Leave (s : State) (client : ClientId) (now : Nat) : State :=
  let s1 := match (s.client client).chatRoom with
    | some chatRoom => ChatRoom.Leave s chatRoom client now
    | none => s
  let s2 : State := { s1 with lobby := { s1.lobby with clients := s1.lobby.clients.erase client } }
  { s2 with
    client := Function.update s2.client client
      { s2.client client with outgoingClosed := true } }

/-- Method `Lobby.DeleteChatRoom`. `now` is the reading compared with the expiry and
`now2` the reading of the broadcast in `ChatRoom.Delete`. The goroutine of the
first branch sleeps until the expiry and is recorded as a wake-up. -/
def Lobby.DeleteChatRoom (s : State) (chatRoom : RoomId) (now now2 : Nat) : State :=
  if (s.room chatRoom).expiry > now then
    { s with wakeups := s.wakeups ++ [((s.room chatRoom).expiry, chatRoom)] }
  else
    let s1 := ChatRoom.Delete s chatRoom now2
    { s1 with lobby := { s1.lobby with
        chatRooms := mapDelete s1.lobby.chatRooms (s1.room chatRoom).name } }

/-- Method `Lobby.SendMessage`. -/
def Lobby.SendMessage (s : State) (message : Message) (now : Nat) : State :=
  match (s.client message.client).chatRoom with
  | none => send s message.client ERROR_SEND
  | some chatRoom => ChatRoom.Broadcast s chatRoom (Message.String s message) now

/-- Method `Lobby.CreateChatRoom`. The new object gets the next free address; the
goroutine sleeping `EXPIRY_TIME` is recorded as a wake-up. -/
def Lobby.CreateChatRoom (s : State) (client : ClientId) (name : String) (now : Nat) : State :=
  match mapGet s.lobby.chatRooms name with
  | some _ => send s client ERROR_CREATE
  | none =>
    let chatRoom := s.nextRoom
    let s1 : State := { s with
      room := Function.update s.room chatRoom (NewChatRoom name now)
      nextRoom := s.nextRoom + 1
      lobby := { s.lobby with chatRooms := mapSet s.lobby.chatRooms name chatRoom }
      wakeups := s.wakeups ++ [(now + EXPIRY_TIME, chatRoom)] }
    send s1 client (Sprintf NOTICE_PERSONAL_CREATE [(s1.room chatRoom).name])

/-- Method `Lobby.LeaveChatRoom`. -/
def Lobby.LeaveChatRoom (s : State) (client : ClientId) (now : Nat) : State :=
  match (s.client client).chatRoom with
  | none => send s client ERROR_LEAVE
  | some chatRoom => ChatRoom.Leave s chatRoom client now

/-- Method `Lobby.JoinChatRoom`. `now` is the reading of the leave broadcast and
`now2` the reading of the join broadcast. Leaving a room changes no entry of
the map, so the second read of `lobby.chatRooms[name]` finds the room of the
first. -/
def Lobby.JoinChatRoom (s : State) (client : ClientId) (name : String) (now now2 : Nat) :
    State :=
  match mapGet s.lobby.chatRooms name with
  | none => send s client ERROR_JOIN
  | some _ =>
    let s1 := if (s.client client).chatRoom ≠ none then Lobby.LeaveChatRoom s client now else s
    match mapGet s1.lobby.chatRooms name with
    | some chatRoom => ChatRoom.Join s1 chatRoom client now2
    | none => s1

/-- Method `Lobby.ChangeName`. -/
def Lobby.ChangeName (s : State) (client : ClientId) (name : String) (now : Nat) : State :=
  let s1 := match (s.client client).chatRoom with
    | none => send s client (Sprintf NOTICE_PERSONAL_NAME [name])
    | some chatRoom =>
      ChatRoom.Broadcast s chatRoom (Sprintf NOTICE_ROOM_NAME [(s.client client).name, name]) now
  { s1 with
    client := Function.update s1.client client { s1.client client with name := name } }

/-- Method `Lobby.ListChatRooms`. `order` is the sequence of keys that the `range`
over the map yields; Go leaves the order open. -/
def Lobby.ListChatRooms (s : State) (client : ClientId) (order : List String) : State :=
  let s1 := send (send s client "\n") client "Chat Rooms:\n"
  let s2 := order.foldl (fun st name => send st client (Sprintf "%s\n" [name])) s1
  send s2 client "\n"

/-- Method `Lobby.Help`. -/
def Lobby.Help (s : State) (client : ClientId) : State :=
  ["\n", "Commands:\n", "/help - lists all commands\n", "/list - lists all chat rooms\n",
    "/create foo - creates a chat room named foo\n", "/join foo - joins a chat room named foo\n",
    "/leave - leaves the current chat room\n", "/name foo - changes your name to foo\n",
    "/quit - quits the program\n", "\n"].foldl (fun st line => send st client line) s

/-- Method `Lobby.Parse`. The cases of the Go `switch` are tried in source order and
`default` runs when none matches. -/
def Lobby.Parse (s : State) (message : Message) (now now2 : Nat) (order : List String) :
    State :=
  if HasPrefix message.text CMD_CREATE then
    Lobby.CreateChatRoom s message.client
      (TrimSuffix (TrimPrefix message.text (CMD_CREATE ++ " ")) "\n") now
  else if HasPrefix message.text CMD_LIST then
    Lobby.ListChatRooms s message.client order
  else if HasPrefix message.text CMD_JOIN then
    Lobby.JoinChatRoom s message.client
      (TrimSuffix (TrimPrefix message.text (CMD_JOIN ++ " ")) "\n") now now2
  else if HasPrefix message.text CMD_LEAVE then
    Lobby.LeaveChatRoom s message.client now
  else if HasPrefix message.text CMD_NAME then
    Lobby.ChangeName s message.client
      (TrimSuffix (TrimPrefix message.text (CMD_NAME ++ " ")) "\n") now
  else if HasPrefix message.text CMD_HELP then
    Lobby.Help s message.client
  else if HasPrefix message.text CMD_QUIT then
    Client.Quit s message.client
  else
    Lobby.SendMessage s message now

/-! ## The dispatch loop -/

/-- What the `select` of `Lobby.Listen` receives, and the connection that
`main` hands to `Lobby.Join`. -/
inductive Event where
  | join : Event
  | leave (client : ClientId) : Event
  | parse (message : Message) : Event
  | delete (deadline : Nat) (chatRoom : RoomId) : Event
deriving DecidableEq

/-- What the run time contributes to one event: the readings of the calls of
`time.Now()` and the order in which a `range` over `lobby.chatRooms` yields
the keys. -/
structure Env where
  now : Nat
  now2 : Nat
  order : List String
deriving DecidableEq

/-- One event of the server. `join` is `lobby.Join(NewClient(conn))` of
`main`: the new object takes the next free address. `delete` is the receipt
of a chat room from a goroutine whose sleep is over; that goroutine ends with
its send, so its wake-up is dropped. -/
def step (s : State) (e : Event) (env : Env) : State :=
  match e with
  | .join =>
    Lobby.Join { s with client := Function.update s.client s.nextClient NewClient
                        nextClient := s.nextClient + 1 } s.nextClient
  | .leave client => Lobby.Leave s client env.now
  | .parse message => Lobby.Parse s message env.now env.now2 env.order
  | .delete deadline chatRoom =>
    let s1 := Lobby.DeleteChatRoom s chatRoom env.now env.now2
    { s1 with wakeups := s1.wakeups.erase (deadline, chatRoom) }

/-- When the server can receive an event. A client sends messages and leaves
only between its admission and its `Leave`; the text of a message is one line
read by `Client.Read`, without a newline, and a `range` over the map yields
every key once; a chat room arrives on `lobby.delete` only from a pending
wake-up whose deadline has passed; the clock does not run backwards inside an
event. -/
def Enabled (s : State) (e : Event) (env : Env) : Prop :=
  env.now ≤ env.now2 ∧
  match e with
  | .join => True
  | .leave client => client ∈ s.lobby.clients
  | .parse message =>
    message.client ∈ s.lobby.clients ∧ '\n' ∉ message.text.data ∧
      env.order.Perm (mapKeys s.lobby.chatRooms)
  | .delete deadline chatRoom => (deadline, chatRoom) ∈ s.wakeups ∧ deadline ≤ env.now

instance (s : State) (e : Event) (env : Env) : Decidable (Enabled s e env) := by
  unfold Enabled
  cases e <;> exact inferInstance

/-- The server after a sequence of events, enabled or not. -/
def run (s : State) (es : List (Event × Env)) : State :=
  es.foldl (fun st e => step st e.1 e.2) s

/-- The states of the server: `NewLobby()` followed by enabled events. -/
inductive Reachable : State → Prop where
  | init : Reachable NewLobby
  | step {s : State} (e : Event) (env : Env) :
      Reachable s → Enabled s e env → Reachable (step s e env)

/-- A chat room is registered when some name of `lobby.chatRooms` maps to it. -/
def Registered (s : State) (chatRoom : RoomId) : Prop :=
  ∃ name, (name, chatRoom) ∈ s.lobby.chatRooms

/-- The consistency of the registries and the back references that the
dispatch loop maintains. -/
structure Inv (s : State) : Prop where
  keysNodup : (mapKeys s.lobby.chatRooms).Nodup
  named : ∀ name r, (name, r) ∈ s.lobby.chatRooms → (s.room r).name = name ∧ r < s.nextRoom
  membersNodup : ∀ r, Registered s r → (s.room r).clients.Nodup
  memberRef : ∀ r, Registered s r → ∀ c ∈ (s.room r).clients, (s.client c).chatRoom = some r
  memberAdmitted : ∀ r, Registered s r → ∀ c ∈ (s.room r).clients, c ∈ s.lobby.clients
  refMember : ∀ c r, (s.client c).chatRoom = some r → Registered s r ∧ c ∈ (s.room r).clients
  wakeRegistered : ∀ d r, (d, r) ∈ s.wakeups → Registered s r
  wakeNodup : (s.wakeups.map Prod.snd).Nodup
  clientsNodup : s.lobby.clients.Nodup
  clientsAlloc : ∀ c ∈ s.lobby.clients, c < s.nextClient
  expiryRefreshed : ∀ r, (s.room r).expiry = (s.room r).refreshedAt + EXPIRY_TIME

/-- Whether every event of a sequence is enabled when its turn comes. -/
def allEnabled (s : State) : List (Event × Env) → Bool
  | [] => true
  | e :: es => decide (Enabled s e.1 e.2) && allEnabled (step s e.1 e.2) es

/-- The environment of an event whose clock readings are both `t`. -/
def envAt (t : Nat) (order : List String) : Env := { now := t, now2 := t, order := order }

/-- Ten connections: the lobby is full afterwards. -/
def tenJoins : List (Event × Env) := List.replicate 10 (Event.join, envAt 0 [])

/-- A short session: clients 0 and 1 connect, client 0 creates the rooms
`general` and `dev`, and both clients join `general`; all at clock reading 0. -/
def session : List (Event × Env) :=
  [(Event.join, envAt 0 []),
   (Event.join, envAt 0 []),
   (Event.parse { time := 0, client := 0, text := "/create general" }, envAt 0 []),
   (Event.parse { time := 0, client := 0, text := "/create dev" }, envAt 0 ["general"]),
   (Event.parse { time := 0, client := 0, text := "/join general" }, envAt 0 ["general", "dev"]),
   (Event.parse { time := 0, client := 1, text := "/join general" }, envAt 0 ["dev", "general"])]

/-- One connection: client 0 is in the lobby, in no room, and there is no
room. -/
def arrival : List (Event × Env) := [(Event.join, envAt 0 [])]

/-- The command words that the cases of `Lobby.Parse` test, in source order. -/
def commandWords : List String :=
  [CMD_CREATE, CMD_LIST, CMD_JOIN, CMD_LEAVE, CMD_NAME, CMD_HELP, CMD_QUIT]

/-- Whether a text begins with one of the command words. -/
def isCommand (text : String) : Bool := commandWords.any (fun word => HasPrefix text word)

/-- The state `t` is the state `s` after `lines` were sent to `client`, and
nothing else happened: same lobby, same chat rooms, same wake-ups, the other
clients as they were, and `client` as it was but for its `outgoing`. -/
def OnlySent (s t : State) (client : ClientId) (lines : List String) : Prop :=
  t.lobby = s.lobby ∧ t.room = s.room ∧ t.wakeups = s.wakeups ∧
  t.nextClient = s.nextClient ∧ t.nextRoom = s.nextRoom ∧
  t.client client =
    { s.client client with outgoing := (s.client client).outgoing ++ lines } ∧
  ∀ c, c ≠ client → t.client c = s.client c

/-! ## The methods with sends that can block

The channel `client.outgoing` is unbuffered, so a send completes only when
the goroutine `Client.Write` of that client receives it. The methods are
given once more, now with that goroutine: a method returns `Except.ok` with
the state it leaves, or `Except.error` with the state in which the dispatch
loop is blocked for ever in a send. -/

/-- The state of the server together with the writer goroutines:
`writerEnded c` holds once `Client.Write` of the client `c` has returned,
after which nobody receives from `c.outgoing`. -/
structure Live where
  state : State
  writerEnded : ClientId → Bool

namespace Blocking

/-- The channel send `client.outgoing <- message`. When `Client.Write` of the
client has returned, the send blocks for ever, in the state `l`. Otherwise
`Client.Write` receives the string, writes it and flushes; on a connection
that `Client.Quit` has closed the write fails and `Client.Write` breaks out
of its loop. A write on an open connection is taken to succeed, and the
writer to finish its write before the dispatch loop goes on. A send on a
channel that `Lobby.Leave` has closed, a panic in Go, is not told apart from
a blocked send; no run of the server sends to a client after its `Leave`. -/
def send (l : Live) (client : ClientId) (message : String) : Except Live Live :=
  if l.writerEnded client then Except.error l
  else Except.ok
    { state := ChatServer.send l.state client message
      writerEnded := Function.update l.writerEnded client (l.state.client client).connClosed }

/-- Method `Client.Quit`: closes the connection; the goroutines of the client
find out at their next read or write. -/
def Client.Quit (l : Live) (client : ClientId) : Live :=
  { l with state := ChatServer.Client.Quit l.state client }

/-- Method `ChatRoom.Broadcast`: the expiry and the history are updated
before the loop of sends. -/
def ChatRoom.Broadcast (l : Live) (chatRoom : RoomId) (message : String) (now : Nat) :
    Except Live Live :=
  let l1 : Live := { l with
    state := { l.state with
      room := Function.update l.state.room chatRoom
        { l.state.room chatRoom with
          expiry := now + EXPIRY_TIME
          refreshedAt := now
          messages := (l.state.room chatRoom).messages ++ [message] } } }
  (l1.state.room chatRoom).clients.foldlM (fun st client => send st client message) l1

/-- Method `ChatRoom.Join`. -/
def ChatRoom.Join (l : Live) (chatRoom : RoomId) (client : ClientId) (now : Nat) :
    Except Live Live := do
  let l1 : Live := { l with state := setChatRoom l.state client (some chatRoom) }
  let l2 ← (l1.state.room chatRoom).messages.foldlM (fun st message => send st client message) l1
  let l3 : Live := { l2 with
    state := { l2.state with
      room := Function.update l2.state.room chatRoom
        { l2.state.room chatRoom with clients := (l2.state.room chatRoom).clients ++ [client] } } }
  ChatRoom.Broadcast l3 chatRoom (Sprintf NOTICE_ROOM_JOIN [(l3.state.client client).name]) now

/-- Method `ChatRoom.Leave`: the broadcast comes first, the removal loop and
the assignment `client.chatRoom = nil` run only when it has returned. -/
def ChatRoom.Leave (l : Live) (chatRoom : RoomId) (client : ClientId) (now : Nat) :
    Except Live Live := do
  let l1 ← ChatRoom.Broadcast l chatRoom
    (Sprintf NOTICE_ROOM_LEAVE [(l.state.client client).name]) now
  let l2 : Live := { l1 with
    state := { l1.state with
      room := Function.update l1.state.room chatRoom
        { l1.state.room chatRoom with clients := (l1.state.room chatRoom).clients.erase client } } }
  pure { l2 with state := setChatRoom l2.state client none }

/-- Method `ChatRoom.Delete`. -/
def ChatRoom.Delete (l : Live) (chatRoom : RoomId) (now : Nat) : Except Live Live := do
  let l1 ← ChatRoom.Broadcast l chatRoom NOTICE_ROOM_DELETE now
  pure { l1 with
    state := (l1.state.room chatRoom).clients.foldl
      (fun st client => setChatRoom st client none) l1.state }

/-- Method `Lobby.Join`. -/
def Lobby.Join (l : Live) (client : ClientId) : Except Live Live :=
  if l.state.lobby.clients.length ≥ MAX_CLIENTS then
    pure (Client.Quit l client)
  else
    send { l with
        state := { l.state with
          lobby := { l.state.lobby with clients := l.state.lobby.clients ++ [client] } } }
      client MSG_CONNECT

/-- Method `Lobby.Leave`: `close(client.outgoing)` ends the `range` of
`Client.Write`. -/
def Lobby.Leave (l : Live) (client : ClientId) (now : Nat) : Except Live Live :=
  (match (l.state.client client).chatRoom with
    | some chatRoom => ChatRoom.Leave l chatRoom client now
    | none => pure l) >>= fun l1 =>
  let s2 : State := { l1.state with
    lobby := { l1.state.lobby with clients := l1.state.lobby.clients.erase client } }
  pure
    { state := { s2 with
        client := Function.update s2.client client
          { s2.client client with outgoingClosed := true } }
      writerEnded := Function.update l1.writerEnded client true }

/-- Method `Lobby.DeleteChatRoom`. -/
def Lobby.DeleteChatRoom (l : Live) (chatRoom : RoomId) (now now2 : Nat) : Except Live Live :=
  if (l.state.room chatRoom).expiry > now then
    pure { l with
      state := { l.state with
        wakeups := l.state.wakeups ++ [((l.state.room chatRoom).expiry, chatRoom)] } }
  else do
    let l1 ← ChatRoom.Delete l chatRoom now2
    pure { l1 with
      state := { l1.state with
        lobby := { l1.state.lobby with
          chatRooms := mapDelete l1.state.lobby.chatRooms (l1.state.room chatRoom).name } } }

/-- Method `Lobby.SendMessage`. -/
def Lobby.SendMessage (l : Live) (message : Message) (now : Nat) : Except Live Live :=
  match (l.state.client message.client).chatRoom with
  | none => send l message.client ERROR_SEND
  | some chatRoom => ChatRoom.Broadcast l chatRoom (Message.String l.state message) now

/-- Method `Lobby.CreateChatRoom`. -/
def Lobby.CreateChatRoom (l : Live) (client : ClientId) (name : String) (now : Nat) :
    Except Live Live :=
  match mapGet l.state.lobby.chatRooms name with
  | some _ => send l client ERROR_CREATE
  | none =>
    let chatRoom := l.state.nextRoom
    let l1 : Live := { l with
      state := { l.state with
        room := Function.update l.state.room chatRoom (NewChatRoom name now)
        nextRoom := l.state.nextRoom + 1
        lobby := { l.state.lobby with chatRooms := mapSet l.state.lobby.chatRooms name chatRoom }
        wakeups := l.state.wakeups ++ [(now + EXPIRY_TIME, chatRoom)] } }
    send l1 client (Sprintf NOTICE_PERSONAL_CREATE [(l1.state.room chatRoom).name])

/-- Method `Lobby.LeaveChatRoom`. -/
def Lobby.LeaveChatRoom (l : Live) (client : ClientId) (now : Nat) : Except Live Live :=
  match (l.state.client client).chatRoom with
  | none => send l client ERROR_LEAVE
  | some chatRoom => ChatRoom.Leave l chatRoom client now

/-- Method `Lobby.JoinChatRoom`. -/
def Lobby.JoinChatRoom (l : Live) (client : ClientId) (name : String) (now now2 : Nat) :
    Except Live Live :=
  match mapGet l.state.lobby.chatRooms name with
  | none => send l client ERROR_JOIN
  | some _ =>
    (if (l.state.client client).chatRoom ≠ none then Lobby.LeaveChatRoom l client now
      else pure l) >>= fun l1 =>
    match mapGet l1.state.lobby.chatRooms name with
    | some chatRoom => ChatRoom.Join l1 chatRoom client now2
    | none => pure l1

/-- Method `Lobby.ChangeName`. -/
def Lobby.ChangeName (l : Live) (client : ClientId) (name : String) (now : Nat) :
    Except Live Live :=
  (match (l.state.client client).chatRoom with
    | none => send l client (Sprintf NOTICE_PERSONAL_NAME [name])
    | some chatRoom =>
      ChatRoom.Broadcast l chatRoom
        (Sprintf NOTICE_ROOM_NAME [(l.state.client client).name, name]) now) >>= fun l1 =>
  pure { l1 with
    state := { l1.state with
      client := Function.update l1.state.client client
        { l1.state.client client with name := name } } }

/-- Method `Lobby.ListChatRooms`. -/
def Lobby.ListChatRooms (l : Live) (client : ClientId) (order : List String) :
    Except Live Live := do
  let l1 ← send l client "\n"
  let l2 ← send l1 client "Chat Rooms:\n"
  let l3 ← order.foldlM (fun st name => send st client (Sprintf "%s\n" [name])) l2
  send l3 client "\n"

/-- Method `Lobby.Help`. -/
def Lobby.Help (l : Live) (client : ClientId) : Except Live Live :=
  ["\n", "Commands:\n", "/help - lists all commands\n", "/list - lists all chat rooms\n",
    "/create foo - creates a chat room named foo\n", "/join foo - joins a chat room named foo\n",
    "/leave - leaves the current chat room\n", "/name foo - changes your name to foo\n",
    "/quit - quits the program\n", "\n"].foldlM (fun st line => send st client line) l

/-- Method `Lobby.Parse`. -/
def Lobby.Parse (l : Live) (message : Message) (now now2 : Nat) (order : List String) :
    Except Live Live :=
  if HasPrefix message.text CMD_CREATE then
    Lobby.CreateChatRoom l message.client
      (TrimSuffix (TrimPrefix message.text (CMD_CREATE ++ " ")) "\n") now
  else if HasPrefix message.text CMD_LIST then
    Lobby.ListChatRooms l message.client order
  else if HasPrefix message.text CMD_JOIN then
    Lobby.JoinChatRoom l message.client
      (TrimSuffix (TrimPrefix message.text (CMD_JOIN ++ " ")) "\n") now now2
  else if HasPrefix message.text CMD_LEAVE then
    Lobby.LeaveChatRoom l message.client now
  else if HasPrefix message.text CMD_NAME then
    Lobby.ChangeName l message.client
      (TrimSuffix (TrimPrefix message.text (CMD_NAME ++ " ")) "\n") now
  else if HasPrefix message.text CMD_HELP then
    Lobby.Help l message.client
  else if HasPrefix message.text CMD_QUIT then
    pure (Client.Quit l message.client)
  else
    Lobby.SendMessage l message now

/-- The state `NewLobby()` starts from; no goroutine of a client runs yet. -/
def NewLobby : Live := { state := ChatServer.NewLobby, writerEnded := fun _ => false }

/-- One event of the server. `NewClient` starts the writer goroutine of the
new client. -/
def step (l : Live) (e : Event) (env : Env) : Except Live Live :=
  match e with
  | .join =>
    Lobby.Join
      { state := { l.state with
          client := Function.update l.state.client l.state.nextClient NewClient
          nextClient := l.state.nextClient + 1 }
        writerEnded := Function.update l.writerEnded l.state.nextClient false }
      l.state.nextClient
  | .leave client => Lobby.Leave l client env.now
  | .parse message => Lobby.Parse l message env.now env.now2 env.order
  | .delete deadline chatRoom => do
    let l1 ← Lobby.DeleteChatRoom l chatRoom env.now env.now2
    pure { l1 with
      state := { l1.state with wakeups := l1.state.wakeups.erase (deadline, chatRoom) } }

/-- The server after a sequence of events, or the state in which it is
blocked. -/
def run (l : Live) (es : List (Event × Env)) : Except Live Live :=
  es.foldlM (fun st e => step st e.1 e.2) l

end Blocking

/-- The short session, after which client 1 sends `/quit` and client 0 says
`hello` in `general`: the connection of client 1 is closed, and the writer of
client 1 ends at the write of `hello`. -/
def quitSession : List (Event × Env) :=
  session ++
    [(Event.parse { time := 0, client := 1, text := "/quit" }, envAt 0 ["general", "dev"]),
     (Event.parse { time := 0, client := 0, text := "hello" }, envAt 0 ["general", "dev"])]

/-- Whether a method returned, instead of blocking in a send. -/
def returned (r : Except Live Live) : Bool :=
  match r with
  | Except.ok _ => true
  | Except.error _ => false

/-- The state a method left when it returned, or the state in which it is
blocked. -/
def lastState (r : Except Live Live) : State :=
  match r with
  | Except.ok l => l.state
  | Except.error l => l.state

/-! ## Closed forms of the loops -/

theorem State.ext_fields {s t : State} (h1 : s.lobby = t.lobby) (h2 : s.client = t.client)
    (h3 : s.room = t.room) (h4 : s.nextClient = t.nextClient) (h5 : s.nextRoom = t.nextRoom)
    (h6 : s.wakeups = t.wakeups) : s = t := by
  cases s; cases t; simp_all

/-- Sending one message to each client of a list, as `Broadcast` does. -/
theorem foldl_send_members (cs : List ClientId) (m : String) (s : State) :
    cs.foldl (fun st c => send st c m) s =
      { s with client := fun c =>
          { s.client c with outgoing := (s.client c).outgoing ++ List.replicate (cs.count c) m } } := by
  induction cs generalizing s with
  | nil =>
    apply State.ext_fields <;> simp
  | cons c0 cs ih =>
    rw [List.foldl_cons, ih]
    apply State.ext_fields <;> simp [send]
    funext c
    by_cases h : c = c0
    · subst h
      simp [List.replicate_succ]
    · have h' : c0 ≠ c := fun e => h e.symm
      simp [Function.update_noteq h, List.count_cons, h']

/-- Sending a list of messages to one client, as the replay of `Join` does. -/
theorem foldl_send_messages (ms : List String) (c : ClientId) (s : State) :
    ms.foldl (fun st m => send st c m) s =
      { s with
        client := Function.update s.client c
          { s.client c with outgoing := (s.client c).outgoing ++ ms } } := by
  induction ms generalizing s with
  | nil =>
    apply State.ext_fields <;> simp
  | cons m ms ih =>
    rw [List.foldl_cons, ih]
    apply State.ext_fields <;> simp [send]

/-- Clearing the room reference of each client of a list, as `Delete` does. -/
theorem foldl_setChatRoom_none (cs : List ClientId) (s : State) :
    cs.foldl (fun st c => setChatRoom st c none) s =
      { s with client := fun c =>
          if c ∈ cs then { s.client c with chatRoom := none } else s.client c } := by
  induction cs generalizing s with
  | nil =>
    apply State.ext_fields <;> simp
  | cons c0 cs ih =>
    rw [List.foldl_cons, ih]
    apply State.ext_fields <;> simp [setChatRoom]
    funext c
    by_cases h : c = c0
    · subst h
      simp
    · simp [Function.update_noteq h, h]

/-! ## What `Broadcast` changes -/

theorem Broadcast_eq (s : State) (r : RoomId) (m : String) (now : Nat) :
    ChatRoom.Broadcast s r m now =
      { s with
        room := Function.update s.room r
          { s.room r with
            expiry := now + EXPIRY_TIME
            refreshedAt := now
            messages := (s.room r).messages ++ [m] }
        client := fun c =>
          { s.client c with
            outgoing := (s.client c).outgoing ++ List.replicate ((s.room r).clients.count c) m } } := by
  unfold ChatRoom.Broadcast
  simp only [foldl_send_members]
  apply State.ext_fields <;> simp

@[simp] theorem Broadcast_lobby (s : State) (r : RoomId) (m : String) (now : Nat) :
    (ChatRoom.Broadcast s r m now).lobby = s.lobby := by
  rw [Broadcast_eq]

@[simp] theorem Broadcast_wakeups (s : State) (r : RoomId) (m : String) (now : Nat) :
    (ChatRoom.Broadcast s r m now).wakeups = s.wakeups := by
  rw [Broadcast_eq]

@[simp] theorem Broadcast_nextClient (s : State) (r : RoomId) (m : String) (now : Nat) :
    (ChatRoom.Broadcast s r m now).nextClient = s.nextClient := by
  rw [Broadcast_eq]

@[simp] theorem Broadcast_nextRoom (s : State) (r : RoomId) (m : String) (now : Nat) :
    (ChatRoom.Broadcast s r m now).nextRoom = s.nextRoom := by
  rw [Broadcast_eq]

@[simp] theorem Broadcast_chatRoom (s : State) (r : RoomId) (m : String) (now : Nat)
    (c : ClientId) :
    ((ChatRoom.Broadcast s r m now).client c).chatRoom = (s.client c).chatRoom := by
  rw [Broadcast_eq]

@[simp] theorem Broadcast_client_name (s : State) (r : RoomId) (m : String) (now : Nat)
    (c : ClientId) :
    ((ChatRoom.Broadcast s r m now).client c).name = (s.client c).name := by
  rw [Broadcast_eq]

@[simp] theorem Broadcast_outgoingClosed (s : State) (r : RoomId) (m : String) (now : Nat)
    (c : ClientId) :
    ((ChatRoom.Broadcast s r m now).client c).outgoingClosed = (s.client c).outgoingClosed := by
  rw [Broadcast_eq]

@[simp] theorem Broadcast_connClosed (s : State) (r : RoomId) (m : String) (now : Nat)
    (c : ClientId) :
    ((ChatRoom.Broadcast s r m now).client c).connClosed = (s.client c).connClosed := by
  rw [Broadcast_eq]

theorem Broadcast_outgoing (s : State) (r : RoomId) (m : String) (now : Nat) (c : ClientId) :
    ((ChatRoom.Broadcast s r m now).client c).outgoing =
      (s.client c).outgoing ++ List.replicate ((s.room r).clients.count c) m := by
  rw [Broadcast_eq]

@[simp] theorem Broadcast_clients (s : State) (r : RoomId) (m : String) (now : Nat)
    (r' : RoomId) :
    ((ChatRoom.Broadcast s r m now).room r').clients = (s.room r').clients := by
  rw [Broadcast_eq]
  by_cases h : r' = r
  · subst h; simp
  · simp [Function.update_noteq h]

@[simp] theorem Broadcast_room_name (s : State) (r : RoomId) (m : String) (now : Nat)
    (r' : RoomId) :
    ((ChatRoom.Broadcast s r m now).room r').name = (s.room r').name := by
  rw [Broadcast_eq]
  by_cases h : r' = r
  · subst h; simp
  · simp [Function.update_noteq h]

theorem Broadcast_room_same (s : State) (r : RoomId) (m : String) (now : Nat) :
    (ChatRoom.Broadcast s r m now).room r =
      { s.room r with
        expiry := now + EXPIRY_TIME
        refreshedAt := now
        messages := (s.room r).messages ++ [m] } := by
  rw [Broadcast_eq]
  simp

theorem Broadcast_room_other (s : State) (r : RoomId) (m : String) (now : Nat)
    {r' : RoomId} (h : r' ≠ r) :
    (ChatRoom.Broadcast s r m now).room r' = s.room r' := by
  rw [Broadcast_eq]
  simp [Function.update_noteq h]

theorem Broadcast_expiryRefreshed (s : State) (r : RoomId) (m : String) (now : Nat)
    (h : ∀ r', (s.room r').expiry = (s.room r').refreshedAt + EXPIRY_TIME) (r' : RoomId) :
    ((ChatRoom.Broadcast s r m now).room r').expiry =
      ((ChatRoom.Broadcast s r m now).room r').refreshedAt + EXPIRY_TIME := by
  by_cases e : r' = r
  · subst e; rw [Broadcast_room_same]
  · rw [Broadcast_room_other s r m now e]; exact h r'

/-! ## Preservation of the invariant -/

/-- A step that touches neither a registry, nor a member list, nor a room
reference, nor a wake-up keeps the invariant. -/
theorem Inv.of_same {s t : State} (hs : Inv s) (hl : t.lobby = s.lobby)
    (hn : ∀ r, (t.room r).name = (s.room r).name)
    (hm : ∀ r, (t.room r).clients = (s.room r).clients)
    (hc : ∀ c, (t.client c).chatRoom = (s.client c).chatRoom)
    (hw : t.wakeups = s.wakeups) (h1 : t.nextClient = s.nextClient)
    (h2 : t.nextRoom = s.nextRoom)
    (he : ∀ r, (t.room r).expiry = (t.room r).refreshedAt + EXPIRY_TIME) : Inv t := by
  have hreg : ∀ r, Registered t r ↔ Registered s r := by
    intro r; unfold Registered; rw [hl]
  constructor
  · rw [hl]; exact hs.keysNodup
  · intro name r h; rw [hl] at h; rw [hn, h2]; exact hs.named name r h
  · intro r h; rw [hm]; exact hs.membersNodup r ((hreg r).1 h)
  · intro r h c hcm; rw [hm] at hcm; rw [hc]; exact hs.memberRef r ((hreg r).1 h) c hcm
  · intro r h c hcm; rw [hm] at hcm; rw [hl]; exact hs.memberAdmitted r ((hreg r).1 h) c hcm
  · intro c r h; rw [hc] at h; rw [hreg, hm]; exact hs.refMember c r h
  · intro d r h; rw [hw] at h; rw [hreg]; exact hs.wakeRegistered d r h
  · rw [hw]; exact hs.wakeNodup
  · rw [hl]; exact hs.clientsNodup
  · intro c h; rw [hl] at h; rw [h1]; exact hs.clientsAlloc c h
  · exact he

theorem Inv.send {s : State} (hs : Inv s) (c : ClientId) (m : String) : Inv (send s c m) := by
  refine hs.of_same rfl (fun _ => rfl) (fun _ => rfl) ?_ rfl rfl rfl hs.expiryRefreshed
  intro c'
  by_cases h : c' = c
  · subst h; simp [ChatServer.send]
  · simp [ChatServer.send, Function.update_noteq h]

theorem Inv.Broadcast {s : State} (hs : Inv s) (r : RoomId) (m : String) (now : Nat) :
    Inv (ChatRoom.Broadcast s r m now) :=
  hs.of_same (by simp) (by simp) (by simp) (by simp) (by simp) (by simp) (by simp)
    (Broadcast_expiryRefreshed s r m now hs.expiryRefreshed)

/-! ### The map `lobby.chatRooms` -/

theorem mapGet_none_iff (m : List (String × RoomId)) (name : String) :
    mapGet m name = none ↔ name ∉ mapKeys m := by
  induction m with
  | nil => simp [mapGet, mapKeys]
  | cons e m ih =>
    obtain ⟨k, v⟩ := e
    unfold mapGet mapKeys at *
    by_cases h : name = k
    · subst h; simp [List.lookup]
    · have h' : (name == k) = false := by simpa using h
      simp [List.lookup, h', ih, h]

theorem mapGet_some_of_mem {m : List (String × RoomId)} (hm : (mapKeys m).Nodup)
    {name : String} {r : RoomId} (h : (name, r) ∈ m) : mapGet m name = some r := by
  induction m with
  | nil => simp at h
  | cons e m ih =>
    obtain ⟨k, v⟩ := e
    unfold mapGet mapKeys at *
    simp only [List.map_cons, List.nodup_cons] at hm
    by_cases hk : name = k
    · subst hk
      rcases List.mem_cons.1 h with h1 | h1
      · cases h1; simp [List.lookup]
      · exact absurd (List.mem_map_of_mem Prod.fst h1) hm.1
    · have h' : (name == k) = false := by simpa using hk
      rcases List.mem_cons.1 h with h1 | h1
      · cases h1; exact absurd rfl hk
      · simp only [List.lookup, h']; exact ih hm.2 h1

theorem mem_of_mapGet_some {m : List (String × RoomId)} {name : String} {r : RoomId}
    (h : mapGet m name = some r) : (name, r) ∈ m := by
  induction m with
  | nil => simp [mapGet] at h
  | cons e m ih =>
    obtain ⟨k, v⟩ := e
    unfold mapGet at *
    by_cases hk : name = k
    · subst hk
      simp [List.lookup] at h
      subst h; exact List.mem_cons_self _ _
    · have h' : (name == k) = false := by simpa using hk
      simp only [List.lookup, h'] at h
      exact List.mem_cons_of_mem _ (ih h)

theorem mem_mapDelete (m : List (String × RoomId)) (name : String) (e : String × RoomId) :
    e ∈ mapDelete m name ↔ e ∈ m ∧ e.1 ≠ name := by
  simp [mapDelete, List.mem_filter]

theorem mapSet_of_absent {m : List (String × RoomId)} {name : String}
    (h : name ∉ mapKeys m) (r : RoomId) : mapSet m name r = m ++ [(name, r)] := by
  unfold mapSet
  congr 1
  apply List.filter_eq_self.2
  intro e he
  have : e.1 ≠ name := fun hk => h (hk ▸ List.mem_map_of_mem Prod.fst he)
  simpa using this

theorem mapKeys_mapDelete_nodup {m : List (String × RoomId)} (hm : (mapKeys m).Nodup)
    (name : String) : (mapKeys (mapDelete m name)).Nodup := by
  unfold mapKeys mapDelete at *
  exact (List.Nodup.sublist (List.Sublist.map _ (List.filter_sublist _)) hm)

theorem wake_erase_nodup {w : List (Nat × RoomId)} (hw : (w.map Prod.snd).Nodup)
    (e : Nat × RoomId) : ((w.erase e).map Prod.snd).Nodup :=
  List.Nodup.sublist (List.Sublist.map _ (List.erase_sublist _ _)) hw

theorem wake_erase_not_mem {w : List (Nat × RoomId)} (hw : (w.map Prod.snd).Nodup)
    {d : Nat} {r : RoomId} (h : (d, r) ∈ w) : r ∉ (w.erase (d, r)).map Prod.snd := by
  induction w with
  | nil => simp at h
  | cons e w ih =>
    simp only [List.map_cons, List.nodup_cons] at hw
    by_cases he : e = (d, r)
    · subst he
      simpa using hw.1
    · have hmem : (d, r) ∈ w := by
        rcases List.mem_cons.1 h with h1 | h1
        · exact absurd h1.symm he
        · exact h1
      rw [List.erase_cons_tail (by simpa using he)]
      simp only [List.map_cons, List.mem_cons, not_or]
      refine ⟨?_, ih hw.2 hmem⟩
      intro hr
      apply hw.1
      rw [← hr]
      exact List.mem_map_of_mem Prod.snd hmem

/-! ### `ChatRoom.Leave` -/

@[simp] theorem Leave_lobby (s : State) (r : RoomId) (c : ClientId) (now : Nat) :
    (ChatRoom.Leave s r c now).lobby = s.lobby := by
  simp [ChatRoom.Leave, setChatRoom]

@[simp] theorem Leave_wakeups (s : State) (r : RoomId) (c : ClientId) (now : Nat) :
    (ChatRoom.Leave s r c now).wakeups = s.wakeups := by
  simp [ChatRoom.Leave, setChatRoom]

@[simp] theorem Leave_nextClient (s : State) (r : RoomId) (c : ClientId) (now : Nat) :
    (ChatRoom.Leave s r c now).nextClient = s.nextClient := by
  simp [ChatRoom.Leave, setChatRoom]

@[simp] theorem Leave_nextRoom (s : State) (r : RoomId) (c : ClientId) (now : Nat) :
    (ChatRoom.Leave s r c now).nextRoom = s.nextRoom := by
  simp [ChatRoom.Leave, setChatRoom]

@[simp] theorem Leave_room_name (s : State) (r : RoomId) (c : ClientId) (now : Nat)
    (r' : RoomId) : ((ChatRoom.Leave s r c now).room r').name = (s.room r').name := by
  by_cases h : r' = r
  · subst h; simp [ChatRoom.Leave, setChatRoom]
  · simp [ChatRoom.Leave, setChatRoom, Function.update_noteq h]

theorem Leave_clients_same (s : State) (r : RoomId) (c : ClientId) (now : Nat) :
    ((ChatRoom.Leave s r c now).room r).clients = (s.room r).clients.erase c := by
  simp [ChatRoom.Leave, setChatRoom]

theorem Leave_room_other (s : State) (r : RoomId) (c : ClientId) (now : Nat) {r' : RoomId}
    (h : r' ≠ r) : (ChatRoom.Leave s r c now).room r' = s.room r' := by
  simp [ChatRoom.Leave, setChatRoom, Function.update_noteq h, Broadcast_room_other s r _ now h]

theorem Leave_messages_same (s : State) (r : RoomId) (c : ClientId) (now : Nat) :
    ((ChatRoom.Leave s r c now).room r).messages =
      (s.room r).messages ++ [Sprintf NOTICE_ROOM_LEAVE [(s.client c).name]] := by
  simp [ChatRoom.Leave, setChatRoom, Broadcast_room_same]

theorem Leave_expiry_same (s : State) (r : RoomId) (c : ClientId) (now : Nat) :
    ((ChatRoom.Leave s r c now).room r).expiry = now + EXPIRY_TIME ∧
      ((ChatRoom.Leave s r c now).room r).refreshedAt = now := by
  simp [ChatRoom.Leave, setChatRoom, Broadcast_room_same]

theorem Leave_chatRoom_same (s : State) (r : RoomId) (c : ClientId) (now : Nat) :
    ((ChatRoom.Leave s r c now).client c).chatRoom = none := by
  simp [ChatRoom.Leave, setChatRoom]

theorem Leave_chatRoom_other (s : State) (r : RoomId) (c : ClientId) (now : Nat)
    {c' : ClientId} (h : c' ≠ c) :
    ((ChatRoom.Leave s r c now).client c').chatRoom = (s.client c').chatRoom := by
  simp [ChatRoom.Leave, setChatRoom, Function.update_noteq h]

@[simp] theorem Leave_client_name (s : State) (r : RoomId) (c : ClientId) (now : Nat)
    (c' : ClientId) : ((ChatRoom.Leave s r c now).client c').name = (s.client c').name := by
  by_cases h : c' = c
  · subst h; simp [ChatRoom.Leave, setChatRoom]
  · simp [ChatRoom.Leave, setChatRoom, Function.update_noteq h]

theorem Leave_outgoing (s : State) (r : RoomId) (c : ClientId) (now : Nat) (c' : ClientId) :
    ((ChatRoom.Leave s r c now).client c').outgoing =
      (s.client c').outgoing ++
        List.replicate ((s.room r).clients.count c')
          (Sprintf NOTICE_ROOM_LEAVE [(s.client c).name]) := by
  by_cases h : c' = c
  · subst h; simp [ChatRoom.Leave, setChatRoom, Broadcast_outgoing]
  · simp [ChatRoom.Leave, setChatRoom, Function.update_noteq h, Broadcast_outgoing]

theorem Leave_expiryRefreshed (s : State) (r : RoomId) (c : ClientId) (now : Nat)
    (h : ∀ r', (s.room r').expiry = (s.room r').refreshedAt + EXPIRY_TIME) (r' : RoomId) :
    ((ChatRoom.Leave s r c now).room r').expiry =
      ((ChatRoom.Leave s r c now).room r').refreshedAt + EXPIRY_TIME := by
  by_cases e : r' = r
  · subst e
    obtain ⟨h1, h2⟩ := Leave_expiry_same s r' c now
    rw [h1, h2]
  · rw [Leave_room_other s r c now e]; exact h r'

theorem Leave_clients (s : State) (r : RoomId) (c : ClientId) (now : Nat) (r' : RoomId) :
    ((ChatRoom.Leave s r c now).room r').clients =
      if r' = r then (s.room r).clients.erase c else (s.room r').clients := by
  by_cases e : r' = r
  · subst e; simp [Leave_clients_same]
  · simp [e, Leave_room_other s r c now e]

theorem Leave_chatRoom (s : State) (r : RoomId) (c : ClientId) (now : Nat) (c' : ClientId) :
    ((ChatRoom.Leave s r c now).client c').chatRoom =
      if c' = c then none else (s.client c').chatRoom := by
  by_cases e : c' = c
  · subst e; simp [Leave_chatRoom_same]
  · simp [e, Leave_chatRoom_other s r c now e]

theorem Inv.Leave {s : State} (hs : Inv s) {r : RoomId} {c : ClientId} (now : Nat)
    (hc : (s.client c).chatRoom = some r) : Inv (ChatRoom.Leave s r c now) := by
  have hreg : ∀ r', Registered (ChatRoom.Leave s r c now) r' ↔ Registered s r' := by
    intro r'; unfold Registered; simp
  constructor
  · simpa using hs.keysNodup
  · intro name r' h
    simp only [Leave_lobby] at h
    simpa using hs.named name r' h
  · intro r' h
    rw [Leave_clients]
    have := hs.membersNodup r' ((hreg r').1 h)
    split
    · next e => subst e; exact this.erase c
    · exact this
  · intro r' h c' hc'
    have hr' := (hreg r').1 h
    rw [Leave_clients] at hc'
    rw [Leave_chatRoom]
    split at hc'
    · next e =>
      subst e
      have hne : c' ≠ c := fun e => by
        subst e; exact (List.Nodup.not_mem_erase (hs.membersNodup r' hr')) hc'
      simp only [hne, if_false]
      exact hs.memberRef r' hr' c' (List.mem_of_mem_erase hc')
    · next e =>
      have h1 := hs.memberRef r' hr' c' hc'
      have hne : c' ≠ c := fun e' => by
        subst e'; rw [hc] at h1; exact e (Option.some.inj h1).symm
      simp only [hne, if_false]
      exact h1
  · intro r' h c' hc'
    rw [Leave_clients] at hc'
    simp only [Leave_lobby]
    split at hc'
    · next e => subst e; exact hs.memberAdmitted r' ((hreg r').1 h) c' (List.mem_of_mem_erase hc')
    · exact hs.memberAdmitted r' ((hreg r').1 h) c' hc'
  · intro c' r' h
    rw [Leave_chatRoom] at h
    split at h
    · exact absurd h (by simp)
    · next e =>
      obtain ⟨h1, h2⟩ := hs.refMember c' r' h
      refine ⟨(hreg r').2 h1, ?_⟩
      rw [Leave_clients]
      split
      · next e' => subst e'; exact (List.mem_erase_of_ne e).2 h2
      · exact h2
  · intro d r' h
    simp only [Leave_wakeups] at h
    exact (hreg r').2 (hs.wakeRegistered d r' h)
  · simpa using hs.wakeNodup
  · simpa using hs.clientsNodup
  · intro c' h
    simp only [Leave_lobby] at h
    simpa using hs.clientsAlloc c' h
  · exact Leave_expiryRefreshed s r c now hs.expiryRefreshed

/-! ### `ChatRoom.Join` -/

@[simp] theorem Join_lobby (s : State) (r : RoomId) (c : ClientId) (now : Nat) :
    (ChatRoom.Join s r c now).lobby = s.lobby := by
  simp [ChatRoom.Join, setChatRoom, foldl_send_messages]

@[simp] theorem Join_wakeups (s : State) (r : RoomId) (c : ClientId) (now : Nat) :
    (ChatRoom.Join s r c now).wakeups = s.wakeups := by
  simp [ChatRoom.Join, setChatRoom, foldl_send_messages]

@[simp] theorem Join_nextClient (s : State) (r : RoomId) (c : ClientId) (now : Nat) :
    (ChatRoom.Join s r c now).nextClient = s.nextClient := by
  simp [ChatRoom.Join, setChatRoom, foldl_send_messages]

@[simp] theorem Join_nextRoom (s : State) (r : RoomId) (c : ClientId) (now : Nat) :
    (ChatRoom.Join s r c now).nextRoom = s.nextRoom := by
  simp [ChatRoom.Join, setChatRoom, foldl_send_messages]

@[simp] theorem Join_room_name (s : State) (r : RoomId) (c : ClientId) (now : Nat)
    (r' : RoomId) : ((ChatRoom.Join s r c now).room r').name = (s.room r').name := by
  by_cases h : r' = r
  · subst h; simp [ChatRoom.Join, setChatRoom, foldl_send_messages]
  · simp [ChatRoom.Join, setChatRoom, foldl_send_messages, Function.update_noteq h]

@[simp] theorem Join_client_name (s : State) (r : RoomId) (c : ClientId) (now : Nat)
    (c' : ClientId) : ((ChatRoom.Join s r c now).client c').name = (s.client c').name := by
  by_cases h : c' = c
  · subst h; simp [ChatRoom.Join, setChatRoom, foldl_send_messages]
  · simp [ChatRoom.Join, setChatRoom, foldl_send_messages, Function.update_noteq h]

theorem Join_room_same (s : State) (r : RoomId) (c : ClientId) (now : Nat) :
    (ChatRoom.Join s r c now).room r =
      { s.room r with
        clients := (s.room r).clients ++ [c]
        messages := (s.room r).messages ++ [Sprintf NOTICE_ROOM_JOIN [(s.client c).name]]
        expiry := now + EXPIRY_TIME
        refreshedAt := now } := by
  simp [ChatRoom.Join, setChatRoom, foldl_send_messages, Broadcast_room_same]

theorem Join_room_other (s : State) (r : RoomId) (c : ClientId) (now : Nat) {r' : RoomId}
    (h : r' ≠ r) : (ChatRoom.Join s r c now).room r' = s.room r' := by
  simp [ChatRoom.Join, setChatRoom, foldl_send_messages, Function.update_noteq h,
    Broadcast_room_other _ r _ now h]

theorem Join_clients (s : State) (r : RoomId) (c : ClientId) (now : Nat) (r' : RoomId) :
    ((ChatRoom.Join s r c now).room r').clients =
      if r' = r then (s.room r).clients ++ [c] else (s.room r').clients := by
  by_cases e : r' = r
  · subst e; simp [Join_room_same]
  · simp [e, Join_room_other s r c now e]

theorem Join_chatRoom (s : State) (r : RoomId) (c : ClientId) (now : Nat) (c' : ClientId) :
    ((ChatRoom.Join s r c now).client c').chatRoom =
      if c' = c then some r else (s.client c').chatRoom := by
  by_cases h : c' = c
  · subst h; simp [ChatRoom.Join, setChatRoom, foldl_send_messages]
  · simp [ChatRoom.Join, setChatRoom, foldl_send_messages, Function.update_noteq h, h]

theorem Join_outgoing_same (s : State) (r : RoomId) (c : ClientId) (now : Nat) :
    ((ChatRoom.Join s r c now).client c).outgoing =
      (s.client c).outgoing ++ (s.room r).messages ++
        List.replicate (((s.room r).clients ++ [c]).count c)
          (Sprintf NOTICE_ROOM_JOIN [(s.client c).name]) := by
  simp [ChatRoom.Join, setChatRoom, foldl_send_messages, Broadcast_outgoing]

theorem Join_outgoing_other (s : State) (r : RoomId) (c : ClientId) (now : Nat)
    {c' : ClientId} (h : c' ≠ c) :
    ((ChatRoom.Join s r c now).client c').outgoing =
      (s.client c').outgoing ++
        List.replicate ((s.room r).clients.count c')
          (Sprintf NOTICE_ROOM_JOIN [(s.client c).name]) := by
  have h' : c ≠ c' := fun e => h e.symm
  have h0 : List.count c' [c] = 0 := List.count_eq_zero.2 (by simpa using h)
  simp [ChatRoom.Join, setChatRoom, foldl_send_messages, Broadcast_outgoing,
    Function.update_noteq h, List.count_append, h0]

theorem Join_expiryRefreshed (s : State) (r : RoomId) (c : ClientId) (now : Nat)
    (h : ∀ r', (s.room r').expiry = (s.room r').refreshedAt + EXPIRY_TIME) (r' : RoomId) :
    ((ChatRoom.Join s r c now).room r').expiry =
      ((ChatRoom.Join s r c now).room r').refreshedAt + EXPIRY_TIME := by
  by_cases e : r' = r
  · subst e; rw [Join_room_same]
  · rw [Join_room_other s r c now e]; exact h r'

theorem Inv.Join {s : State} (hs : Inv s) {r : RoomId} {c : ClientId} (now : Nat)
    (hr : Registered s r) (hc : (s.client c).chatRoom = none) (ha : c ∈ s.lobby.clients) :
    Inv (ChatRoom.Join s r c now) := by
  have hreg : ∀ r', Registered (ChatRoom.Join s r c now) r' ↔ Registered s r' := by
    intro r'; unfold Registered; simp
  have hnot : ∀ r', Registered s r' → c ∉ (s.room r').clients := by
    intro r' h hm
    have := hs.memberRef r' h c hm
    rw [hc] at this; exact absurd this (by simp)
  constructor
  · simpa using hs.keysNodup
  · intro name r' h
    simp only [Join_lobby] at h
    simpa using hs.named name r' h
  · intro r' h
    rw [Join_clients]
    have h0 := (hreg r').1 h
    have := hs.membersNodup r' h0
    split
    · next e =>
      subst e
      exact List.Nodup.append this (List.nodup_singleton c)
        (by simpa [List.disjoint_singleton] using hnot r' h0)
    · exact this
  · intro r' h c' hc'
    have h0 := (hreg r').1 h
    rw [Join_clients] at hc'
    rw [Join_chatRoom]
    by_cases e : c' = c
    · subst e
      by_cases e' : r' = r
      · subst e'; simp
      · simp only [e', if_false] at hc'
        exact absurd hc' (hnot r' h0)
    · simp only [e, if_false]
      split at hc'
      · next e' =>
        subst e'
        rcases List.mem_append.1 hc' with h1 | h1
        · exact hs.memberRef r' h0 c' h1
        · exact absurd (List.mem_singleton.1 h1) e
      · exact hs.memberRef r' h0 c' hc'
  · intro r' h c' hc'
    have h0 := (hreg r').1 h
    rw [Join_clients] at hc'
    simp only [Join_lobby]
    split at hc'
    · next e' =>
      subst e'
      rcases List.mem_append.1 hc' with h1 | h1
      · exact hs.memberAdmitted r' h0 c' h1
      · rw [List.mem_singleton.1 h1]; exact ha
    · exact hs.memberAdmitted r' h0 c' hc'
  · intro c' r' h
    rw [Join_chatRoom] at h
    rw [hreg, Join_clients]
    split at h
    · next e =>
      subst e
      have e' : r' = r := (Option.some.inj h).symm
      subst e'
      exact ⟨hr, by simp⟩
    · obtain ⟨h1, h2⟩ := hs.refMember c' r' h
      refine ⟨h1, ?_⟩
      split
      · next e' => subst e'; exact List.mem_append_left _ h2
      · exact h2
  · intro d r' h
    simp only [Join_wakeups] at h
    exact (hreg r').2 (hs.wakeRegistered d r' h)
  · simpa using hs.wakeNodup
  · simpa using hs.clientsNodup
  · intro c' h
    simp only [Join_lobby] at h
    simpa using hs.clientsAlloc c' h
  · exact Join_expiryRefreshed s r c now hs.expiryRefreshed

/-! ### The command handlers -/

theorem Inv.foldl_send {s : State} (hs : Inv s) (c : ClientId) (g : String → String)
    (l : List String) : Inv (l.foldl (fun st x => ChatServer.send st c (g x)) s) := by
  induction l generalizing s with
  | nil => exact hs
  | cons x l ih => exact ih (hs.send c (g x))

theorem Inv.Quit {s : State} (hs : Inv s) (c : ClientId) : Inv (Client.Quit s c) := by
  refine hs.of_same rfl (fun _ => rfl) (fun _ => rfl) ?_ rfl rfl rfl hs.expiryRefreshed
  intro c'
  by_cases h : c' = c
  · subst h; simp [Client.Quit]
  · simp [Client.Quit, Function.update_noteq h]

theorem Inv.setName {s : State} (hs : Inv s) (c : ClientId) (name : String) :
    Inv { s with
      client := Function.update s.client c { s.client c with name := name } } := by
  refine hs.of_same rfl (fun _ => rfl) (fun _ => rfl) ?_ rfl rfl rfl hs.expiryRefreshed
  intro c'
  by_cases h : c' = c
  · subst h; simp
  · simp [Function.update_noteq h]

theorem Inv.SendMessage {s : State} (hs : Inv s) (m : Message) (now : Nat) :
    Inv (Lobby.SendMessage s m now) := by
  unfold Lobby.SendMessage
  split
  · exact hs.send _ _
  · exact hs.Broadcast _ _ _

theorem Inv.ChangeName {s : State} (hs : Inv s) (c : ClientId) (name : String) (now : Nat) :
    Inv (Lobby.ChangeName s c name now) := by
  unfold Lobby.ChangeName
  apply Inv.setName
  split
  · exact hs.send _ _
  · exact hs.Broadcast _ _ _

theorem Inv.ListChatRooms {s : State} (hs : Inv s) (c : ClientId) (order : List String) :
    Inv (Lobby.ListChatRooms s c order) := by
  unfold Lobby.ListChatRooms
  exact (((hs.send c _).send c _).foldl_send c (fun name => Sprintf "%s\n" [name]) order).send c _

theorem Inv.Help {s : State} (hs : Inv s) (c : ClientId) : Inv (Lobby.Help s c) := by
  unfold Lobby.Help
  exact hs.foldl_send c id _

theorem Inv.LeaveChatRoom {s : State} (hs : Inv s) (c : ClientId) (now : Nat) :
    Inv (Lobby.LeaveChatRoom s c now) := by
  unfold Lobby.LeaveChatRoom
  split
  · exact hs.send _ _
  · next r h => exact hs.Leave now h

theorem LeaveChatRoom_lobby (s : State) (c : ClientId) (now : Nat) :
    (Lobby.LeaveChatRoom s c now).lobby = s.lobby := by
  unfold Lobby.LeaveChatRoom
  split
  · rfl
  · simp

theorem LeaveChatRoom_chatRoom_of_some (s : State) (c : ClientId) (now : Nat)
    (h : (s.client c).chatRoom ≠ none) :
    ((Lobby.LeaveChatRoom s c now).client c).chatRoom = none := by
  unfold Lobby.LeaveChatRoom
  split
  · next h' => exact absurd h' h
  · exact Leave_chatRoom_same _ _ _ _

theorem Inv.JoinChatRoom {s : State} (hs : Inv s) {c : ClientId} (name : String)
    (now now2 : Nat) (ha : c ∈ s.lobby.clients) :
    Inv (Lobby.JoinChatRoom s c name now now2) := by
  unfold Lobby.JoinChatRoom
  split
  · exact hs.send _ _
  · next r0 hr0 =>
    have key : ∀ s1 : State, Inv s1 → s1.lobby = s.lobby → (s1.client c).chatRoom = none →
        Inv (match mapGet s1.lobby.chatRooms name with
          | some chatRoom => ChatRoom.Join s1 chatRoom c now2
          | none => s1) := by
      intro s1 h1 hl hc
      rw [hl, hr0]
      exact h1.Join now2 ⟨name, by rw [hl]; exact mem_of_mapGet_some hr0⟩ hc (by rw [hl]; exact ha)
    by_cases hc : (s.client c).chatRoom = none
    · simp only [hc, ne_eq, not_true_eq_false, if_false]
      exact key s hs rfl hc
    · simp only [hc, ne_eq, not_false_eq_true, if_true]
      exact key _ (hs.LeaveChatRoom c now) (LeaveChatRoom_lobby s c now)
        (LeaveChatRoom_chatRoom_of_some s c now hc)

theorem Inv.CreateChatRoom {s : State} (hs : Inv s) (c : ClientId) (name : String) (now : Nat) :
    Inv (Lobby.CreateChatRoom s c name now) := by
  unfold Lobby.CreateChatRoom
  split
  · exact hs.send _ _
  · next hnone =>
    apply Inv.send
    have habs : name ∉ mapKeys s.lobby.chatRooms := (mapGet_none_iff _ _).1 hnone
    have hfresh : ∀ r, Registered s r → r ≠ s.nextRoom := by
      intro r ⟨n, hn⟩ e
      have := (hs.named n r hn).2
      rw [e] at this
      exact Nat.lt_irrefl _ this
    have hreg : ∀ r, Registered { s with
        room := Function.update s.room s.nextRoom (NewChatRoom name now)
        nextRoom := s.nextRoom + 1
        lobby := { s.lobby with chatRooms := mapSet s.lobby.chatRooms name s.nextRoom }
        wakeups := s.wakeups ++ [(now + EXPIRY_TIME, s.nextRoom)] } r ↔
          (Registered s r ∨ r = s.nextRoom) := by
      intro r
      unfold Registered
      simp only [mapSet_of_absent habs, List.mem_append, List.mem_singleton, Prod.mk.injEq]
      constructor
      · rintro ⟨n, h | ⟨_, h⟩⟩
        · exact Or.inl ⟨n, h⟩
        · exact Or.inr h
      · rintro (⟨n, h⟩ | h)
        · exact ⟨n, Or.inl h⟩
        · exact ⟨name, Or.inr ⟨rfl, h⟩⟩
    constructor
    · simp only [mapSet_of_absent habs, mapKeys, List.map_append, List.map_cons, List.map_nil]
      exact List.Nodup.append hs.keysNodup (List.nodup_singleton name)
        (by simpa [List.disjoint_singleton, mapKeys] using habs)
    · intro n r h
      simp only [mapSet_of_absent habs, List.mem_append, List.mem_singleton, Prod.mk.injEq] at h
      rcases h with h | ⟨h1, h2⟩
      · have := hs.named n r h
        have hne : r ≠ s.nextRoom := Nat.ne_of_lt this.2
        simp only [Function.update_noteq hne]
        exact ⟨this.1, Nat.lt_succ_of_lt this.2⟩
      · subst h1; subst h2
        simp [NewChatRoom]
    · intro r h
      rcases (hreg r).1 h with h | h
      · simp only [Function.update_noteq (hfresh r h)]
        exact hs.membersNodup r h
      · subst h; simp [NewChatRoom]
    · intro r h c' hc'
      rcases (hreg r).1 h with h | h
      · simp only [Function.update_noteq (hfresh r h)] at hc'
        exact hs.memberRef r h c' hc'
      · subst h; simp [NewChatRoom] at hc'
    · intro r h c' hc'
      rcases (hreg r).1 h with h | h
      · simp only [Function.update_noteq (hfresh r h)] at hc'
        exact hs.memberAdmitted r h c' hc'
      · subst h; simp [NewChatRoom] at hc'
    · intro c' r h
      obtain ⟨h1, h2⟩ := hs.refMember c' r h
      refine ⟨(hreg r).2 (Or.inl h1), ?_⟩
      simp only [Function.update_noteq (hfresh r h1)]
      exact h2
    · intro d r h
      simp only [List.mem_append, List.mem_singleton, Prod.mk.injEq] at h
      rcases h with h | ⟨_, h⟩
      · exact (hreg r).2 (Or.inl (hs.wakeRegistered d r h))
      · exact (hreg r).2 (Or.inr h)
    · simp only [List.map_append, List.map_cons, List.map_nil]
      refine List.Nodup.append hs.wakeNodup (List.nodup_singleton _) ?_
      simp only [List.disjoint_singleton]
      intro hmem
      obtain ⟨⟨d, r⟩, h1, h2⟩ := List.mem_map.1 hmem
      simp only at h2
      subst h2
      exact hfresh _ (hs.wakeRegistered d _ h1) rfl
    · exact hs.clientsNodup
    · exact hs.clientsAlloc
    · intro r
      by_cases e : r = s.nextRoom
      · subst e; simp [NewChatRoom]
      · simp only [Function.update_noteq e]; exact hs.expiryRefreshed r

theorem Inv.Parse {s : State} (hs : Inv s) (m : Message) (now now2 : Nat)
    (order : List String) (ha : m.client ∈ s.lobby.clients) :
    Inv (Lobby.Parse s m now now2 order) := by
  unfold Lobby.Parse
  split
  · exact hs.CreateChatRoom _ _ _
  split
  · exact hs.ListChatRooms _ _
  split
  · exact hs.JoinChatRoom _ _ _ ha
  split
  · exact hs.LeaveChatRoom _ _
  split
  · exact hs.ChangeName _ _ _
  split
  · exact hs.Help _
  split
  · exact hs.Quit _
  · exact hs.SendMessage _ _

/-! ### The events -/

theorem Inv.LobbyLeave {s : State} (hs : Inv s) (c : ClientId) (now : Nat) :
    Inv (Lobby.Leave s c now) := by
  have key : ∀ s1 : State, Inv s1 → (s1.client c).chatRoom = none →
      Inv { s1 with
        lobby := { s1.lobby with clients := s1.lobby.clients.erase c }
        client := Function.update s1.client c { s1.client c with outgoingClosed := true } } := by
    intro s1 h1 hc
    have hch : ∀ c', ((Function.update s1.client c
        { s1.client c with outgoingClosed := true }) c').chatRoom = (s1.client c').chatRoom := by
      intro c'
      by_cases h : c' = c
      · subst h; simp
      · simp [Function.update_noteq h]
    constructor
    · exact h1.keysNodup
    · exact h1.named
    · exact h1.membersNodup
    · intro r h c' hc'
      rw [hch]; exact h1.memberRef r h c' hc'
    · intro r h c' hc'
      have hne : c' ≠ c := fun e => by
        subst e
        have := h1.memberRef r h c' hc'
        rw [hc] at this; exact absurd this (by simp)
      exact (List.mem_erase_of_ne hne).2 (h1.memberAdmitted r h c' hc')
    · intro c' r h
      rw [hch] at h
      exact h1.refMember c' r h
    · exact h1.wakeRegistered
    · exact h1.wakeNodup
    · exact h1.clientsNodup.erase c
    · intro c' h
      exact h1.clientsAlloc c' (List.mem_of_mem_erase h)
    · exact h1.expiryRefreshed
  unfold Lobby.Leave
  split
  · next r hr => exact key _ (hs.Leave now hr) (Leave_chatRoom_same _ _ _ _)
  · next hr => exact key _ hs hr

theorem Inv.connect {s : State} (hs : Inv s) :
    Inv (Lobby.Join { s with
      client := Function.update s.client s.nextClient NewClient
      nextClient := s.nextClient + 1 } s.nextClient) := by
  have hmem : ∀ r, Registered s r → ∀ c ∈ (s.room r).clients, c ≠ s.nextClient := by
    intro r h c hc
    exact Nat.ne_of_lt (hs.clientsAlloc c (hs.memberAdmitted r h c hc))
  have h0 : Inv { s with
      client := Function.update s.client s.nextClient NewClient
      nextClient := s.nextClient + 1 } := by
    constructor
    · exact hs.keysNodup
    · exact hs.named
    · exact hs.membersNodup
    · intro r h c hc
      simp only [Function.update_noteq (hmem r h c hc)]
      exact hs.memberRef r h c hc
    · exact hs.memberAdmitted
    · intro c r h
      by_cases e : c = s.nextClient
      · subst e; simp [NewClient] at h
      · simp only [Function.update_noteq e] at h
        exact hs.refMember c r h
    · exact hs.wakeRegistered
    · exact hs.wakeNodup
    · exact hs.clientsNodup
    · intro c h
      exact Nat.lt_succ_of_lt (hs.clientsAlloc c h)
    · exact hs.expiryRefreshed
  unfold Lobby.Join
  split
  · exact h0.Quit _
  · apply Inv.send
    constructor
    · exact h0.keysNodup
    · exact h0.named
    · exact h0.membersNodup
    · exact h0.memberRef
    · intro r h c hc
      exact List.mem_append_left _ (h0.memberAdmitted r h c hc)
    · exact h0.refMember
    · exact h0.wakeRegistered
    · exact h0.wakeNodup
    · refine List.Nodup.append hs.clientsNodup (List.nodup_singleton _) ?_
      simp only [List.disjoint_singleton]
      intro h
      exact Nat.lt_irrefl _ (hs.clientsAlloc _ h)
    · intro c h
      rcases List.mem_append.1 h with h | h
      · exact Nat.lt_succ_of_lt (hs.clientsAlloc c h)
      · rw [List.mem_singleton.1 h]; exact Nat.lt_succ_self _
    · exact h0.expiryRefreshed

theorem registered_unique {s : State} (hs : Inv s) {name : String} {r r' : RoomId}
    (h : (name, r) ∈ s.lobby.chatRooms) (h' : (name, r') ∈ s.lobby.chatRooms) : r = r' := by
  have h1 := mapGet_some_of_mem hs.keysNodup h
  have h2 := mapGet_some_of_mem hs.keysNodup h'
  rw [h1] at h2
  exact Option.some.inj h2

/-! ### `ChatRoom.Delete` -/

theorem Delete_eq (s : State) (r : RoomId) (now : Nat) :
    ChatRoom.Delete s r now =
      { ChatRoom.Broadcast s r NOTICE_ROOM_DELETE now with
        client := fun c =>
          if c ∈ (s.room r).clients then
            { (ChatRoom.Broadcast s r NOTICE_ROOM_DELETE now).client c with chatRoom := none }
          else (ChatRoom.Broadcast s r NOTICE_ROOM_DELETE now).client c } := by
  unfold ChatRoom.Delete
  simp only [foldl_setChatRoom_none, Broadcast_clients]

@[simp] theorem Delete_lobby (s : State) (r : RoomId) (now : Nat) :
    (ChatRoom.Delete s r now).lobby = s.lobby := by
  rw [Delete_eq]; simp

@[simp] theorem Delete_wakeups (s : State) (r : RoomId) (now : Nat) :
    (ChatRoom.Delete s r now).wakeups = s.wakeups := by
  rw [Delete_eq]; simp

@[simp] theorem Delete_nextClient (s : State) (r : RoomId) (now : Nat) :
    (ChatRoom.Delete s r now).nextClient = s.nextClient := by
  rw [Delete_eq]; simp

@[simp] theorem Delete_nextRoom (s : State) (r : RoomId) (now : Nat) :
    (ChatRoom.Delete s r now).nextRoom = s.nextRoom := by
  rw [Delete_eq]; simp

theorem Delete_room (s : State) (r : RoomId) (now : Nat) :
    (ChatRoom.Delete s r now).room = (ChatRoom.Broadcast s r NOTICE_ROOM_DELETE now).room := by
  rw [Delete_eq]

@[simp] theorem Delete_room_name (s : State) (r : RoomId) (now : Nat) (r' : RoomId) :
    ((ChatRoom.Delete s r now).room r').name = (s.room r').name := by
  rw [Delete_room]; simp

@[simp] theorem Delete_clients (s : State) (r : RoomId) (now : Nat) (r' : RoomId) :
    ((ChatRoom.Delete s r now).room r').clients = (s.room r').clients := by
  rw [Delete_room]; simp

theorem Delete_chatRoom (s : State) (r : RoomId) (now : Nat) (c : ClientId) :
    ((ChatRoom.Delete s r now).client c).chatRoom =
      if c ∈ (s.room r).clients then none else (s.client c).chatRoom := by
  rw [Delete_eq]
  by_cases h : c ∈ (s.room r).clients <;> simp [h]

theorem Delete_outgoing (s : State) (r : RoomId) (now : Nat) (c : ClientId) :
    ((ChatRoom.Delete s r now).client c).outgoing =
      (s.client c).outgoing ++ List.replicate ((s.room r).clients.count c) NOTICE_ROOM_DELETE := by
  rw [Delete_eq]
  by_cases h : c ∈ (s.room r).clients <;> simp [h, Broadcast_outgoing]

@[simp] theorem Delete_client_name (s : State) (r : RoomId) (now : Nat) (c : ClientId) :
    ((ChatRoom.Delete s r now).client c).name = (s.client c).name := by
  rw [Delete_eq]
  by_cases h : c ∈ (s.room r).clients <;> simp [h]

/-! ### Expiry checks -/

/-- After the deletion of a registered room the registered rooms are the
others. -/
theorem registered_after_delete {s : State} (hs : Inv s) {r : RoomId} (hr : Registered s r)
    (lobby' : Lobby) (hl : lobby'.chatRooms = mapDelete s.lobby.chatRooms (s.room r).name)
    (r' : RoomId) :
    (∃ name, (name, r') ∈ lobby'.chatRooms) ↔ (Registered s r' ∧ r' ≠ r) := by
  obtain ⟨n, hn⟩ := hr
  have hname : (s.room r).name = n := (hs.named n r hn).1
  rw [hl, hname]
  constructor
  · rintro ⟨n', h⟩
    obtain ⟨h1, h2⟩ := (mem_mapDelete _ _ _).1 h
    refine ⟨⟨n', h1⟩, ?_⟩
    intro e
    subst e
    exact h2 ((hs.named n' r' h1).1.symm.trans hname)
  · rintro ⟨⟨n', h1⟩, h2⟩
    refine ⟨n', (mem_mapDelete _ _ _).2 ⟨h1, ?_⟩⟩
    intro e
    simp only at e
    subst e
    exact h2 (registered_unique hs h1 hn)

theorem Inv.expiryCheck {s : State} (hs : Inv s) {d : Nat} {r : RoomId}
    (hw : (d, r) ∈ s.wakeups) (now now2 : Nat) :
    Inv (Lobby.DeleteChatRoom { s with wakeups := s.wakeups.erase (d, r) } r now now2) := by
  have hr : Registered s r := hs.wakeRegistered d r hw
  unfold Lobby.DeleteChatRoom
  split
  · constructor
    · exact hs.keysNodup
    · exact hs.named
    · exact hs.membersNodup
    · exact hs.memberRef
    · exact hs.memberAdmitted
    · exact hs.refMember
    · intro d' r' h
      rcases List.mem_append.1 h with h | h
      · exact hs.wakeRegistered d' r' (List.mem_of_mem_erase h)
      · simp only [List.mem_singleton, Prod.mk.injEq] at h
        rw [h.2]; exact hr
    · simp only [List.map_append, List.map_cons, List.map_nil]
      refine List.Nodup.append (wake_erase_nodup hs.wakeNodup _) (List.nodup_singleton _) ?_
      simp only [List.disjoint_singleton]
      exact wake_erase_not_mem hs.wakeNodup hw
    · exact hs.clientsNodup
    · exact hs.clientsAlloc
    · exact hs.expiryRefreshed
  · have hreg := fun r' => registered_after_delete hs hr
      { s.lobby with chatRooms := mapDelete s.lobby.chatRooms (s.room r).name } rfl r'
    simp only [Delete_lobby, Delete_room_name]
    constructor
    · exact mapKeys_mapDelete_nodup hs.keysNodup _
    · intro n' r' h
      have h1 := ((mem_mapDelete _ _ _).1 h).1
      simpa using hs.named n' r' h1
    · intro r' h
      simpa using hs.membersNodup r' ((hreg r').1 h).1
    · intro r' h c hc
      obtain ⟨h1, h2⟩ := (hreg r').1 h
      simp only [Delete_clients] at hc
      have h3 := hs.memberRef r' h1 c hc
      simp only [Delete_chatRoom]
      have hnot : c ∉ (s.room r).clients := fun hm => by
        have := hs.memberRef r hr c hm
        rw [h3] at this
        exact h2 (Option.some.inj this)
      simp only [hnot, if_false]
      exact h3
    · intro r' h c hc
      simp only [Delete_clients] at hc
      exact hs.memberAdmitted r' ((hreg r').1 h).1 c hc
    · intro c r' h
      simp only [Delete_chatRoom] at h
      split at h
      · exact absurd h (by simp)
      · next hnot =>
        obtain ⟨h1, h2⟩ := hs.refMember c r' h
        have hne : r' ≠ r := fun e => by subst e; exact hnot h2
        exact ⟨(hreg r').2 ⟨h1, hne⟩, by simpa using h2⟩
    · intro d' r' h
      simp only [Delete_wakeups] at h
      refine (hreg r').2 ⟨hs.wakeRegistered d' r' (List.mem_of_mem_erase h), ?_⟩
      intro e
      subst e
      exact wake_erase_not_mem hs.wakeNodup hw (List.mem_map_of_mem Prod.snd h)
    · simpa using wake_erase_nodup hs.wakeNodup _
    · exact hs.clientsNodup
    · intro c h
      simpa using hs.clientsAlloc c h
    · intro r'
      rw [Delete_room]
      exact Broadcast_expiryRefreshed { s with wakeups := s.wakeups.erase (d, r) } r
        NOTICE_ROOM_DELETE now2 (fun r0 => hs.expiryRefreshed r0) r'

theorem step_delete_eq (s : State) {d : Nat} {r : RoomId} (hw : (d, r) ∈ s.wakeups)
    (env : Env) :
    step s (Event.delete d r) env =
      Lobby.DeleteChatRoom { s with wakeups := s.wakeups.erase (d, r) } r env.now env.now2 := by
  simp only [step, Lobby.DeleteChatRoom]
  split
  · simp only [List.erase_append_left _ hw]
  · apply State.ext_fields <;> simp [Delete_eq, Broadcast_eq]

theorem Inv.init : Inv NewLobby := by
  constructor <;> simp [NewLobby, mapKeys, Registered, NewChatRoom, NewClient]

theorem Inv.step {s : State} (hs : Inv s) {e : Event} {env : Env} (h : Enabled s e env) :
    Inv (step s e env) := by
  cases e with
  | join => exact hs.connect
  | leave c => exact hs.LobbyLeave c env.now
  | parse m => exact hs.Parse m env.now env.now2 env.order h.2.1
  | delete d r =>
    rw [step_delete_eq s h.2.1 env]
    exact hs.expiryCheck h.2.1 env.now env.now2

/-- Every state of the server satisfies the invariant. -/
theorem Reachable.inv {s : State} (h : Reachable s) : Inv s := by
  induction h with
  | init => exact Inv.init
  | step e env _ hen ih => exact ih.step hen

theorem reachable_run (es : List (Event × Env)) {s : State} (hs : Reachable s)
    (h : allEnabled s es = true) : Reachable (run s es) := by
  induction es generalizing s with
  | nil => exact hs
  | cons e es ih =>
    simp only [allEnabled, Bool.and_eq_true, decide_eq_true_eq] at h
    exact ih (Reachable.step e.1 e.2 hs h.1) h.2

/-! ## The formats of the server -/

theorem Sprintf_room_join (name : String) :
    Sprintf NOTICE_ROOM_JOIN [name] = "Notice: \"" ++ name ++ "\" joined the chat room.\n" := by
  apply String.ext
  simp [Sprintf, sprintfLoop, NOTICE_ROOM_JOIN, NOTICE_PREFIX]

theorem Sprintf_room_leave (name : String) :
    Sprintf NOTICE_ROOM_LEAVE [name] = "Notice: \"" ++ name ++ "\" left the chat room.\n" := by
  apply String.ext
  simp [Sprintf, sprintfLoop, NOTICE_ROOM_LEAVE, NOTICE_PREFIX]

theorem Sprintf_room_name (old new : String) :
    Sprintf NOTICE_ROOM_NAME [old, new] =
      "Notice: \"" ++ old ++ "\" changed their name to \"" ++ new ++ "\".\n" := by
  apply String.ext
  simp [Sprintf, sprintfLoop, NOTICE_ROOM_NAME, NOTICE_PREFIX]

theorem Sprintf_line (name : String) : Sprintf "%s\n" [name] = name ++ "\n" := by
  apply String.ext
  simp [Sprintf, sprintfLoop]

theorem Sprintf_message (time name text : String) :
    Sprintf "%s - %s: %s\n" [time, name, text] = time ++ " - " ++ name ++ ": " ++ text ++ "\n" := by
  apply String.ext
  simp [Sprintf, sprintfLoop]

/-! ## Handlers that only send -/

theorem ListChatRooms_eq (s : State) (c : ClientId) (order : List String) :
    Lobby.ListChatRooms s c order =
      { s with
        client := Function.update s.client c
          { s.client c with
            outgoing := (s.client c).outgoing ++
              ("\n" :: "Chat Rooms:\n" :: order.map (fun name => name ++ "\n")) ++ ["\n"] } } := by
  unfold Lobby.ListChatRooms
  have h : ∀ st : State, order.foldl (fun st name => send st c (Sprintf "%s\n" [name])) st =
      (order.map (fun name => name ++ "\n")).foldl (fun st m => send st c m) st := by
    intro st
    rw [List.foldl_map]
    simp only [Sprintf_line]
  simp only [h, foldl_send_messages]
  apply State.ext_fields <;> simp [send]

theorem Help_eq (s : State) (c : ClientId) :
    Lobby.Help s c =
      { s with
        client := Function.update s.client c
          { s.client c with
            outgoing := (s.client c).outgoing ++
              ["\n", "Commands:\n", "/help - lists all commands\n",
                "/list - lists all chat rooms\n", "/create foo - creates a chat room named foo\n",
                "/join foo - joins a chat room named foo\n",
                "/leave - leaves the current chat room\n",
                "/name foo - changes your name to foo\n", "/quit - quits the program\n", "\n"] } } := by
  unfold Lobby.Help
  rw [foldl_send_messages]

theorem CreateChatRoom_clients (s : State) (c : ClientId) (name : String) (now : Nat) :
    (Lobby.CreateChatRoom s c name now).lobby.clients = s.lobby.clients := by
  unfold Lobby.CreateChatRoom
  split <;> rfl

theorem JoinChatRoom_lobby (s : State) (c : ClientId) (name : String) (now now2 : Nat) :
    (Lobby.JoinChatRoom s c name now now2).lobby = s.lobby := by
  unfold Lobby.JoinChatRoom
  split
  · rfl
  · split <;> simp [LeaveChatRoom_lobby] <;> split <;> simp [LeaveChatRoom_lobby]

theorem ChangeName_lobby (s : State) (c : ClientId) (name : String) (now : Nat) :
    (Lobby.ChangeName s c name now).lobby = s.lobby := by
  unfold Lobby.ChangeName
  split <;> simp [send]

theorem SendMessage_lobby (s : State) (m : Message) (now : Nat) :
    (Lobby.SendMessage s m now).lobby = s.lobby := by
  unfold Lobby.SendMessage
  split <;> simp [send]

theorem Parse_clients (s : State) (m : Message) (now now2 : Nat) (order : List String) :
    (Lobby.Parse s m now now2 order).lobby.clients = s.lobby.clients := by
  unfold Lobby.Parse
  split
  · exact CreateChatRoom_clients _ _ _ _
  split
  · rw [ListChatRooms_eq]
  split
  · rw [JoinChatRoom_lobby]
  split
  · rw [LeaveChatRoom_lobby]
  split
  · rw [ChangeName_lobby]
  split
  · rw [Help_eq]
  split
  · rfl
  · rw [SendMessage_lobby]

theorem LobbyLeave_clients (s : State) (c : ClientId) (now : Nat) :
    (Lobby.Leave s c now).lobby.clients = s.lobby.clients.erase c := by
  unfold Lobby.Leave
  split <;> simp

theorem step_cap (s : State) (e : Event) (env : Env)
    (h : s.lobby.clients.length ≤ MAX_CLIENTS) :
    (step s e env).lobby.clients.length ≤ MAX_CLIENTS := by
  cases e with
  | join =>
    simp only [step, Lobby.Join]
    split
    · exact h
    · next hlt =>
      simp only [send, List.length_append, List.length_singleton]
      simp only [ge_iff_le, not_le] at hlt
      exact hlt
  | leave c =>
    simp only [step, LobbyLeave_clients]
    exact le_trans (List.length_erase_le _ _) h
  | parse m =>
    simp only [step, Parse_clients]
    exact h
  | delete d r =>
    simp only [step, Lobby.DeleteChatRoom]
    split
    · exact h
    · simpa using h

theorem run_cap (es : List (Event × Env)) (s : State)
    (h : s.lobby.clients.length ≤ MAX_CLIENTS) :
    (run s es).lobby.clients.length ≤ MAX_CLIENTS := by
  induction es generalizing s with
  | nil => exact h
  | cons e es ih => exact ih _ (step_cap s e.1 e.2 h)

/-! ## Admission control -/

/-- C1. After any sequence of `Join`, `Leave`, `Parse` and `DeleteChatRoom`
events from the empty lobby, `lobby.clients` holds at most `MAX_CLIENTS`
clients. `Lobby.Join` on a lobby that holds `MAX_CLIENTS` clients (or more)
leaves the lobby unchanged, sends nothing to any client, the rejected one
included, and closes the connection of the rejected client. -/
theorem admission_cap (es : List (Event × Env)) (s : State) (client : ClientId) :
    (run NewLobby es).lobby.clients.length ≤ MAX_CLIENTS ∧
    (MAX_CLIENTS ≤ s.lobby.clients.length →
      (Lobby.Join s client).lobby = s.lobby ∧
      (∀ c, ((Lobby.Join s client).client c).outgoing = (s.client c).outgoing) ∧
      ((Lobby.Join s client).client client).connClosed = true) := by
  refine ⟨run_cap es NewLobby (by decide), ?_⟩
  intro h
  have hq : Lobby.Join s client = Client.Quit s client := by
    unfold Lobby.Join
    rw [if_pos h]
  rw [hq]
  refine ⟨rfl, ?_, by simp [Client.Quit]⟩
  intro c
  by_cases e : c = client
  · subst e; simp [Client.Quit]
  · simp [Client.Quit, Function.update_noteq e]

/-- C1, on the lobby filled by ten connections: the eleventh client, at
address 10, is turned away. -/
theorem admission_cap_witness :
    MAX_CLIENTS ≤ (run NewLobby tenJoins).lobby.clients.length ∧
    (Lobby.Join (run NewLobby tenJoins) 10).lobby = (run NewLobby tenJoins).lobby ∧
    (∀ c, ((Lobby.Join (run NewLobby tenJoins) 10).client c).outgoing =
      ((run NewLobby tenJoins).client c).outgoing) ∧
    ((Lobby.Join (run NewLobby tenJoins) 10).client 10).connClosed = true :=
  ⟨by decide, (admission_cap [] (run NewLobby tenJoins) 10).2 (by decide)⟩

/-- The short session is a run of the server. -/
theorem reachable_session : Reachable (run NewLobby session) :=
  reachable_run session Reachable.init (by decide)

/-! ## Room names -/

/-- C2. When `name` is already a key of `lobby.chatRooms`,
`CreateChatRoom(client, name)` sends the one line
`Error: A chat room with that name already exists.` to that client, changes
nothing else of that client, changes no other client, and leaves the
registry, every chat room (members, history, expiry) and the pending
wake-ups as they were. -/
theorem duplicate_room_name (s : State) (client : ClientId) (name : String) (now : Nat)
    (h : name ∈ mapKeys s.lobby.chatRooms) :
    (Lobby.CreateChatRoom s client name now).client client =
      { s.client client with
        outgoing := (s.client client).outgoing ++
          ["Error: A chat room with that name already exists.\n"] } ∧
    (∀ c, c ≠ client → (Lobby.CreateChatRoom s client name now).client c = s.client c) ∧
    (Lobby.CreateChatRoom s client name now).lobby = s.lobby ∧
    (Lobby.CreateChatRoom s client name now).room = s.room ∧
    (Lobby.CreateChatRoom s client name now).wakeups = s.wakeups ∧
    (Lobby.CreateChatRoom s client name now).nextRoom = s.nextRoom := by
  have hsome : ∃ r, mapGet s.lobby.chatRooms name = some r := by
    cases hg : mapGet s.lobby.chatRooms name with
    | none => exact absurd h ((mapGet_none_iff _ _).1 hg)
    | some r => exact ⟨r, rfl⟩
  obtain ⟨r, hr⟩ := hsome
  have he : Lobby.CreateChatRoom s client name now = send s client ERROR_CREATE := by
    unfold Lobby.CreateChatRoom
    rw [hr]
  rw [he]
  refine ⟨?_, ?_, rfl, rfl, rfl, rfl⟩
  · simp [send]
    rfl
  · intro c hc
    simp [send, Function.update_noteq hc]

/-- C2, in the short session: client 1 asks for a second room `general`. -/
theorem duplicate_room_name_witness :
    "general" ∈ mapKeys (run NewLobby session).lobby.chatRooms ∧
    ((Lobby.CreateChatRoom (run NewLobby session) 1 "general" 5).client 1).outgoing =
      ((run NewLobby session).client 1).outgoing ++
        ["Error: A chat room with that name already exists.\n"] ∧
    (Lobby.CreateChatRoom (run NewLobby session) 1 "general" 5).lobby =
      (run NewLobby session).lobby :=
  ⟨by decide,
    congrArg Client.outgoing (duplicate_room_name (run NewLobby session) 1 "general" 5 (by decide)).1,
    (duplicate_room_name (run NewLobby session) 1 "general" 5 (by decide)).2.2.1⟩

/-! ## Membership -/

/-- C3. In every state of the server and for every client: the client is in
the member list of at most one registered room, occurs there at most once,
its `chatRoom` is a registered room exactly when the client is a member of
that room, and its `chatRoom` is `nil` exactly when it is a member of no
registered room. -/
theorem one_room_per_client {s : State} (hs : Reachable s) (c : ClientId) :
    (∀ r1 r2, Registered s r1 → Registered s r2 →
      c ∈ (s.room r1).clients → c ∈ (s.room r2).clients → r1 = r2) ∧
    (∀ r, Registered s r → (s.room r).clients.count c ≤ 1) ∧
    (∀ r, Registered s r → ((s.client c).chatRoom = some r ↔ c ∈ (s.room r).clients)) ∧
    ((s.client c).chatRoom = none ↔ ∀ r, Registered s r → c ∉ (s.room r).clients) := by
  have hi := hs.inv
  refine ⟨?_, ?_, ?_, ?_⟩
  · intro r1 r2 h1 h2 m1 m2
    have e1 := hi.memberRef r1 h1 c m1
    have e2 := hi.memberRef r2 h2 c m2
    rw [e1] at e2
    exact Option.some.inj e2
  · intro r h
    exact List.nodup_iff_count_le_one.1 (hi.membersNodup r h) c
  · intro r h
    exact ⟨fun e => (hi.refMember c r e).2, fun m => hi.memberRef r h c m⟩
  · constructor
    · intro e r h m
      have := hi.memberRef r h c m
      rw [e] at this
      exact absurd this (by simp)
    · intro h
      cases e : (s.client c).chatRoom with
      | none => rfl
      | some r =>
        obtain ⟨h1, h2⟩ := hi.refMember c r e
        exact absurd h2 (h r h1)

/-- C3, in the short session, for client 0, a member of `general`. -/
theorem one_room_per_client_witness :
    Reachable (run NewLobby session) ∧
    (∀ r, Registered (run NewLobby session) r →
      (((run NewLobby session).client 0).chatRoom = some r ↔
        0 ∈ ((run NewLobby session).room r).clients)) :=
  ⟨reachable_session, (one_room_per_client reachable_session 0).2.2.1⟩

/-! ## Joining and switching rooms -/

theorem JoinChatRoom_of_member {s : State} {c : ClientId} {a b : RoomId}
    {name : String} (now now2 : Nat) (hc : (s.client c).chatRoom = some a)
    (hb : mapGet s.lobby.chatRooms name = some b) :
    Lobby.JoinChatRoom s c name now now2 = ChatRoom.Join (ChatRoom.Leave s a c now) b c now2 := by
  have hl : Lobby.LeaveChatRoom s c now = ChatRoom.Leave s a c now := by
    unfold Lobby.LeaveChatRoom
    rw [hc]
  unfold Lobby.JoinChatRoom
  rw [hb]
  simp only [hc, ne_eq, not_false_eq_true, if_true, hl, Leave_lobby, hb, reduceCtorEq]

/-- C4. For a client that is a member of the registered room `a` and a
registered name `name` (of room `b`), `JoinChatRoom(client, name)` is
`ChatRoom.Leave` on `a` followed by `ChatRoom.Join` on `b`. After the leave
the notice `Notice: "<client name>" left the chat room.` is the last entry of
the history of `a` and the client is no member of `a` and has no room;
at the end the client is a member of `b`, the room named `name`, its
`chatRoom` is `b`, and it is a member of no other registered room. -/
theorem switch_rooms {s : State} (hs : Reachable s) (c : ClientId) (a b : RoomId)
    (name : String) (now now2 : Nat) (ha : Registered s a) (hm : c ∈ (s.room a).clients)
    (hb : mapGet s.lobby.chatRooms name = some b) :
    Lobby.JoinChatRoom s c name now now2 = ChatRoom.Join (ChatRoom.Leave s a c now) b c now2 ∧
    ((ChatRoom.Leave s a c now).room a).messages =
      (s.room a).messages ++ ["Notice: \"" ++ (s.client c).name ++ "\" left the chat room.\n"] ∧
    c ∉ ((ChatRoom.Leave s a c now).room a).clients ∧
    ((ChatRoom.Leave s a c now).client c).chatRoom = none ∧
    c ∈ ((Lobby.JoinChatRoom s c name now now2).room b).clients ∧
    ((Lobby.JoinChatRoom s c name now now2).room b).name = name ∧
    ((Lobby.JoinChatRoom s c name now now2).client c).chatRoom = some b ∧
    (∀ r, Registered (Lobby.JoinChatRoom s c name now now2) r → r ≠ b →
      c ∉ ((Lobby.JoinChatRoom s c name now now2).room r).clients) := by
  have hi := hs.inv
  have hc : (s.client c).chatRoom = some a := hi.memberRef a ha c hm
  have hadm : c ∈ s.lobby.clients := hi.memberAdmitted a ha c hm
  have hmem := mem_of_mapGet_some hb
  have heq := JoinChatRoom_of_member now now2 hc hb
  have hi' : Inv (Lobby.JoinChatRoom s c name now now2) := hi.JoinChatRoom name now now2 hadm
  have hch : ((Lobby.JoinChatRoom s c name now now2).client c).chatRoom = some b := by
    rw [heq, Join_chatRoom]; simp
  refine ⟨heq, ?_, ?_, Leave_chatRoom_same _ _ _ _, ?_, ?_, hch, ?_⟩
  · rw [Leave_messages_same, Sprintf_room_leave]
  · rw [Leave_clients_same]
    exact List.Nodup.not_mem_erase (hi.membersNodup a ha)
  · rw [heq, Join_clients]; simp
  · rw [heq, Join_room_name, Leave_room_name]
    exact (hi.named name b hmem).1
  · intro r hr hne hmr
    have := hi'.memberRef r hr c hmr
    rw [hch] at this
    exact hne (Option.some.inj this).symm

/-- C4, in the short session: client 0 moves from `general` (room 0) to `dev`
(room 1). -/
theorem switch_rooms_witness :
    Reachable (run NewLobby session) ∧ Registered (run NewLobby session) 0 ∧
    0 ∈ ((run NewLobby session).room 0).clients ∧
    mapGet (run NewLobby session).lobby.chatRooms "dev" = some 1 ∧
    0 ∈ ((Lobby.JoinChatRoom (run NewLobby session) 0 "dev" 7 8).room 1).clients ∧
    0 ∉ ((ChatRoom.Leave (run NewLobby session) 0 0 7).room 0).clients :=
  ⟨reachable_session, ⟨"general", by decide⟩, by decide, by decide,
    (switch_rooms reachable_session 0 0 1 "dev" 7 8 ⟨"general", by decide⟩ (by decide)
      (by decide)).2.2.2.2.1,
    (switch_rooms reachable_session 0 0 1 "dev" 7 8 ⟨"general", by decide⟩ (by decide)
      (by decide)).2.2.1⟩

/-- In a run of the server `Lobby.JoinChatRoom`, the only caller of
`ChatRoom.Join`, calls it for a client that is not in the member list of the
room: `s1` is the state in which the call is made. -/
theorem JoinChatRoom_calls_Join {s : State} (hs : Reachable s) (c : ClientId) {r : RoomId}
    {name : String} (now now2 : Nat) (hr : mapGet s.lobby.chatRooms name = some r) :
    ∃ s1, (s1 = s ∨ s1 = Lobby.LeaveChatRoom s c now) ∧
      Lobby.JoinChatRoom s c name now now2 = ChatRoom.Join s1 r c now2 ∧
      c ∉ (s1.room r).clients := by
  have hi := hs.inv
  have hreg : Registered s r := ⟨name, mem_of_mapGet_some hr⟩
  cases hc : (s.client c).chatRoom with
  | none =>
    refine ⟨s, Or.inl rfl, ?_, ?_⟩
    · unfold Lobby.JoinChatRoom
      simp [hr, hc]
    · intro hm
      have := hi.memberRef r hreg c hm
      rw [hc] at this
      exact absurd this (by simp)
  | some a =>
    have hl : Lobby.LeaveChatRoom s c now = ChatRoom.Leave s a c now := by
      unfold Lobby.LeaveChatRoom
      rw [hc]
    refine ⟨Lobby.LeaveChatRoom s c now, Or.inr rfl, ?_, ?_⟩
    · rw [hl]; exact JoinChatRoom_of_member now now2 hc hr
    · intro hm
      have hi1 := hi.LeaveChatRoom c now
      have hreg1 : Registered (Lobby.LeaveChatRoom s c now) r := by
        unfold Registered; rw [LeaveChatRoom_lobby]; exact hreg
      have := hi1.memberRef r hreg1 c hm
      rw [hl, Leave_chatRoom_same] at this
      exact absurd this (by simp)

/-- C5. `ChatRoom.Join(client)` on a room with history `h`, for a client
that is not in the member list yet, sends to the client the entries of `h`
in their order, then the notice
`Notice: "<client name>" joined the chat room.`, and nothing else. Every call
that `Lobby.JoinChatRoom` makes in a run of the server is of that kind: in
the state `s1` of the call, reached directly or through `LeaveChatRoom`, the
client is not in the member list and receives the history of `s1` followed
by the notice. -/
theorem join_replays_history (s : State) (r : RoomId) (c : ClientId) (now : Nat) :
    (c ∉ (s.room r).clients →
      ((ChatRoom.Join s r c now).client c).outgoing =
        (s.client c).outgoing ++ (s.room r).messages ++
          ["Notice: \"" ++ (s.client c).name ++ "\" joined the chat room.\n"]) ∧
    (Reachable s → ∀ name now2, mapGet s.lobby.chatRooms name = some r →
      ∃ s1, (s1 = s ∨ s1 = Lobby.LeaveChatRoom s c now) ∧
        Lobby.JoinChatRoom s c name now now2 = ChatRoom.Join s1 r c now2 ∧
        c ∉ (s1.room r).clients ∧
        ((Lobby.JoinChatRoom s c name now now2).client c).outgoing =
          (s1.client c).outgoing ++ (s1.room r).messages ++
            ["Notice: \"" ++ (s1.client c).name ++ "\" joined the chat room.\n"]) := by
  have key : ∀ (t : State) (t0 : Nat), c ∉ (t.room r).clients →
      ((ChatRoom.Join t r c t0).client c).outgoing =
        (t.client c).outgoing ++ (t.room r).messages ++
          ["Notice: \"" ++ (t.client c).name ++ "\" joined the chat room.\n"] := by
    intro t t0 h
    rw [Join_outgoing_same, Sprintf_room_join, List.count_append, List.count_eq_zero.2 h]
    simp
  refine ⟨key s now, ?_⟩
  intro hs name now2 hr
  obtain ⟨s1, h1, h2, h3⟩ := JoinChatRoom_calls_Join hs c now now2 hr
  exact ⟨s1, h1, h2, h3, by rw [h2]; exact key s1 now2 h3⟩

/-- C5, in the short session: a third client joins `general`, whose history
holds the two earlier join notices. -/
theorem join_replays_history_witness :
    2 ∉ ((run NewLobby session).room 0).clients ∧
    ((ChatRoom.Join (run NewLobby session) 0 2 9).client 2).outgoing =
      ((run NewLobby session).client 2).outgoing ++ ((run NewLobby session).room 0).messages ++
        ["Notice: \"" ++ ((run NewLobby session).client 2).name ++ "\" joined the chat room.\n"] :=
  ⟨by decide, (join_replays_history (run NewLobby session) 0 2 9).1 (by decide)⟩

/-! ## Expiry -/

/-- C6, as stated, fails: in the short session the room `general` was created
at clock reading 0, and a broadcast performed at the same reading leaves its
expiry where it was instead of increasing it. -/
theorem expiry_refresh_not_strict :
    Reachable (run NewLobby session) ∧ Registered (run NewLobby session) 0 ∧
    ((run NewLobby session).room 0).refreshedAt = 0 ∧
    ¬ (((run NewLobby session).room 0).expiry <
        ((ChatRoom.Broadcast (run NewLobby session) 0 "hello\n" 0).room 0).expiry) :=
  ⟨reachable_session, ⟨"general", by decide⟩, by decide, by decide⟩

/-- C6, amended. In every state of the server a room's expiry is the clock
reading of its creation or last broadcast plus `EXPIRY_TIME`; a broadcast at
reading `now` leaves the expiry equal to `now + EXPIRY_TIME`, which is later
than the previous expiry exactly when `now` is later than that reading, and
not earlier than it exactly when `now` is not earlier than that reading. -/
theorem expiry_refresh {s : State} (hs : Reachable s) (r : RoomId) (m : String) (now : Nat) :
    (s.room r).expiry = (s.room r).refreshedAt + EXPIRY_TIME ∧
    ((ChatRoom.Broadcast s r m now).room r).expiry = now + EXPIRY_TIME ∧
    ((ChatRoom.Broadcast s r m now).room r).refreshedAt = now ∧
    ((s.room r).expiry < ((ChatRoom.Broadcast s r m now).room r).expiry ↔
      (s.room r).refreshedAt < now) ∧
    ((s.room r).expiry ≤ ((ChatRoom.Broadcast s r m now).room r).expiry ↔
      (s.room r).refreshedAt ≤ now) := by
  have h := hs.inv.expiryRefreshed r
  rw [Broadcast_room_same]
  refine ⟨h, rfl, rfl, ?_, ?_⟩
  · simp only [h]
    exact Nat.add_lt_add_iff_right
  · simp only [h]
    exact Nat.add_le_add_iff_right

/-- C6, amended, in the short session: a broadcast in `general` at reading 5. -/
theorem expiry_refresh_witness :
    Reachable (run NewLobby session) ∧
    ((ChatRoom.Broadcast (run NewLobby session) 0 "hello\n" 5).room 0).expiry =
      5 + EXPIRY_TIME :=
  ⟨reachable_session, (expiry_refresh reachable_session 0 "hello\n" 5).2.1⟩

/-! ## Renaming -/

theorem ChangeName_of_member (s : State) (c : ClientId) (r : RoomId) (name : String)
    (now : Nat) (hc : (s.client c).chatRoom = some r) :
    Lobby.ChangeName s c name now =
      { ChatRoom.Broadcast s r (Sprintf NOTICE_ROOM_NAME [(s.client c).name, name]) now with
        client := Function.update
          (ChatRoom.Broadcast s r (Sprintf NOTICE_ROOM_NAME [(s.client c).name, name]) now).client c
          { (ChatRoom.Broadcast s r (Sprintf NOTICE_ROOM_NAME [(s.client c).name, name]) now).client c
            with name := name } } := by
  unfold Lobby.ChangeName
  rw [hc]

/-- C7. For a client named `old` that is a member of a registered room,
`ChangeName(client, newName)` appends
`Notice: "<old>" changed their name to "<newName>".` to the history of the
room, sends that line once to every member and to nobody else, and sets
`client.name` to `newName`; every message of that client rendered by
`Message.String` afterwards carries `newName` as the sender. -/
theorem rename_in_room {s : State} (hs : Reachable s) (c : ClientId) (r : RoomId)
    (newName : String) (now : Nat) (hr : Registered s r) (hm : c ∈ (s.room r).clients) :
    ((Lobby.ChangeName s c newName now).room r).messages =
      (s.room r).messages ++
        ["Notice: \"" ++ (s.client c).name ++ "\" changed their name to \"" ++ newName ++ "\".\n"] ∧
    (∀ c' ∈ (s.room r).clients, ((Lobby.ChangeName s c newName now).client c').outgoing =
      (s.client c').outgoing ++
        ["Notice: \"" ++ (s.client c).name ++ "\" changed their name to \"" ++ newName ++ "\".\n"]) ∧
    (∀ c', c' ∉ (s.room r).clients →
      ((Lobby.ChangeName s c newName now).client c').outgoing = (s.client c').outgoing) ∧
    ((Lobby.ChangeName s c newName now).client c).name = newName ∧
    (∀ message : Message, message.client = c →
      Message.String (Lobby.ChangeName s c newName now) message =
        Kitchen message.time ++ " - " ++ newName ++ ": " ++ message.text ++ "\n") := by
  have hi := hs.inv
  have hc : (s.client c).chatRoom = some r := hi.memberRef r hr c hm
  have hout : ∀ c', ((Lobby.ChangeName s c newName now).client c').outgoing =
      (s.client c').outgoing ++ List.replicate ((s.room r).clients.count c')
        (Sprintf NOTICE_ROOM_NAME [(s.client c).name, newName]) := by
    intro c'
    rw [ChangeName_of_member s c r newName now hc]
    by_cases e : c' = c
    · subst e; simp [Broadcast_outgoing]
    · simp [Function.update_noteq e, Broadcast_outgoing]
  have hname : ((Lobby.ChangeName s c newName now).client c).name = newName := by
    rw [ChangeName_of_member s c r newName now hc]
    simp
  refine ⟨?_, ?_, ?_, hname, ?_⟩
  · rw [ChangeName_of_member s c r newName now hc]
    simp [Broadcast_room_same, Sprintf_room_name]
  · intro c' hc'
    rw [hout, List.count_eq_one_of_mem (hi.membersNodup r hr) hc', Sprintf_room_name]
    rfl
  · intro c' hc'
    rw [hout, List.count_eq_zero.2 hc']
    simp
  · intro message hmc
    subst hmc
    unfold Message.String
    rw [hname, Sprintf_message]

/-- C7, in the short session: client 0, in `general`, takes the name `bob`. -/
theorem rename_in_room_witness :
    Reachable (run NewLobby session) ∧ Registered (run NewLobby session) 0 ∧
    0 ∈ ((run NewLobby session).room 0).clients ∧
    ((Lobby.ChangeName (run NewLobby session) 0 "bob" 6).room 0).messages =
      ((run NewLobby session).room 0).messages ++
        ["Notice: \"" ++ ((run NewLobby session).client 0).name ++
          "\" changed their name to \"" ++ "bob" ++ "\".\n"] ∧
    ((Lobby.ChangeName (run NewLobby session) 0 "bob" 6).client 0).name = "bob" :=
  ⟨reachable_session, ⟨"general", by decide⟩, by decide,
    (rename_in_room reachable_session 0 0 "bob" 6 ⟨"general", by decide⟩ (by decide)).1,
    (rename_in_room reachable_session 0 0 "bob" 6 ⟨"general", by decide⟩ (by decide)).2.2.2.1⟩

/-! ## Deleting expired rooms -/

theorem DeleteChatRoom_of_expired (s : State) (r : RoomId) (now now2 : Nat)
    (he : (s.room r).expiry ≤ now) :
    Lobby.DeleteChatRoom s r now now2 =
      { ChatRoom.Delete s r now2 with
        lobby := { s.lobby with chatRooms := mapDelete s.lobby.chatRooms (s.room r).name } } := by
  unfold Lobby.DeleteChatRoom
  rw [if_neg (Nat.not_lt.2 he)]
  simp

theorem line_injective {a b : String} (h : a ++ "\n" = b ++ "\n") : a = b := by
  apply String.ext
  have := congrArg String.data h
  simp only [String.data_append] at this
  exact List.append_cancel_right this

/-- C8. For a room registered under `name` whose expiry is not after the
clock reading `now`, `DeleteChatRoom` sends
`Notice: Chat room is inactive and being deleted.` to every member and sets
the `chatRoom` of every member to `nil`, touches no other client, removes
`name` from `lobby.chatRooms` and keeps every other entry and every other
room as they were; a `ListChatRooms` that follows, whatever the order of the
`range`, sends the header, one line for each remaining name and the closing
line, and no line for `name`. -/
theorem expired_room_deleted {s : State} (hs : Reachable s) (r : RoomId) (name : String)
    (now now2 : Nat) (hr : (name, r) ∈ s.lobby.chatRooms) (he : (s.room r).expiry ≤ now) :
    (∀ c ∈ (s.room r).clients,
      ((Lobby.DeleteChatRoom s r now now2).client c).outgoing =
        (s.client c).outgoing ++ ["Notice: Chat room is inactive and being deleted.\n"] ∧
      ((Lobby.DeleteChatRoom s r now now2).client c).chatRoom = none) ∧
    (∀ c, c ∉ (s.room r).clients → (Lobby.DeleteChatRoom s r now now2).client c = s.client c) ∧
    name ∉ mapKeys (Lobby.DeleteChatRoom s r now now2).lobby.chatRooms ∧
    (∀ e, e ∈ (Lobby.DeleteChatRoom s r now now2).lobby.chatRooms ↔
      (e ∈ s.lobby.chatRooms ∧ e ≠ (name, r))) ∧
    (∀ r', r' ≠ r → (Lobby.DeleteChatRoom s r now now2).room r' = s.room r') ∧
    (Lobby.DeleteChatRoom s r now now2).lobby.clients = s.lobby.clients ∧
    (∀ c order, order.Perm (mapKeys (Lobby.DeleteChatRoom s r now now2).lobby.chatRooms) →
      ((Lobby.ListChatRooms (Lobby.DeleteChatRoom s r now now2) c order).client c).outgoing =
        ((Lobby.DeleteChatRoom s r now now2).client c).outgoing ++
          ("\n" :: "Chat Rooms:\n" :: order.map (fun n => n ++ "\n")) ++ ["\n"] ∧
      name ++ "\n" ∉ order.map (fun n => n ++ "\n")) := by
  have hi := hs.inv
  have hreg : Registered s r := ⟨name, hr⟩
  have hname : (s.room r).name = name := (hi.named name r hr).1
  have heq := DeleteChatRoom_of_expired s r now now2 he
  have hkeys : name ∉ mapKeys (Lobby.DeleteChatRoom s r now now2).lobby.chatRooms := by
    rw [heq, hname]
    intro h
    obtain ⟨e, h1, h2⟩ := List.mem_map.1 h
    exact ((mem_mapDelete _ _ _).1 h1).2 h2
  refine ⟨?_, ?_, hkeys, ?_, ?_, ?_, ?_⟩
  · intro c hc
    rw [heq]
    constructor
    · show ((ChatRoom.Delete s r now2).client c).outgoing = _
      rw [Delete_outgoing, List.count_eq_one_of_mem (hi.membersNodup r hreg) hc]
      rfl
    · show ((ChatRoom.Delete s r now2).client c).chatRoom = none
      rw [Delete_chatRoom, if_pos hc]
  · intro c hc
    rw [heq]
    show (ChatRoom.Delete s r now2).client c = s.client c
    rw [Delete_eq]
    simp only [hc, if_false]
    rw [Broadcast_eq]
    simp [List.count_eq_zero.2 hc]
  · intro e
    rw [heq, hname]
    show e ∈ mapDelete s.lobby.chatRooms name ↔ _
    rw [mem_mapDelete]
    constructor
    · rintro ⟨h1, h2⟩
      exact ⟨h1, fun e' => h2 (by rw [e'])⟩
    · rintro ⟨h1, h2⟩
      refine ⟨h1, fun e' => h2 ?_⟩
      obtain ⟨n', r'⟩ := e
      simp only at e'
      subst e'
      rw [registered_unique hi h1 hr]
  · intro r' hne
    rw [heq]
    show (ChatRoom.Delete s r now2).room r' = s.room r'
    rw [Delete_room, Broadcast_room_other s r _ now2 hne]
  · rw [heq]
  · intro c order hp
    constructor
    · rw [ListChatRooms_eq]
      simp
    · intro hmem
      obtain ⟨n, h1, h2⟩ := List.mem_map.1 hmem
      have : n = name := line_injective h2
      subst this
      exact hkeys (hp.mem_iff.1 h1)

/-- C8, in the short session: `general` (room 0) is checked at the instant of
its expiry, with clients 0 and 1 still in it. -/
theorem expired_room_deleted_witness :
    Reachable (run NewLobby session) ∧
    ("general", 0) ∈ (run NewLobby session).lobby.chatRooms ∧
    ((run NewLobby session).room 0).expiry ≤ EXPIRY_TIME ∧
    "general" ∉ mapKeys
      (Lobby.DeleteChatRoom (run NewLobby session) 0 EXPIRY_TIME EXPIRY_TIME).lobby.chatRooms ∧
    (∀ c ∈ ((run NewLobby session).room 0).clients,
      ((Lobby.DeleteChatRoom (run NewLobby session) 0 EXPIRY_TIME EXPIRY_TIME).client c).outgoing =
        ((run NewLobby session).client c).outgoing ++
          ["Notice: Chat room is inactive and being deleted.\n"] ∧
      ((Lobby.DeleteChatRoom (run NewLobby session) 0 EXPIRY_TIME EXPIRY_TIME).client c).chatRoom =
        none) :=
  ⟨reachable_session, by decide, by decide,
    (expired_room_deleted reachable_session 0 "general" EXPIRY_TIME EXPIRY_TIME (by decide)
      (by decide)).2.2.1,
    (expired_room_deleted reachable_session 0 "general" EXPIRY_TIME EXPIRY_TIME (by decide)
      (by decide)).1⟩

theorem CreateChatRoom_chatRooms_mono (s : State) (c : ClientId) (name : String) (now : Nat)
    {e : String × RoomId} (h : e ∈ s.lobby.chatRooms) :
    e ∈ (Lobby.CreateChatRoom s c name now).lobby.chatRooms := by
  unfold Lobby.CreateChatRoom
  split
  · exact h
  · next hnone =>
    show e ∈ mapSet s.lobby.chatRooms name s.nextRoom
    rw [mapSet_of_absent ((mapGet_none_iff _ _).1 hnone)]
    exact List.mem_append_left _ h

theorem Parse_chatRooms_mono (s : State) (m : Message) (now now2 : Nat) (order : List String)
    {e : String × RoomId} (h : e ∈ s.lobby.chatRooms) :
    e ∈ (Lobby.Parse s m now now2 order).lobby.chatRooms := by
  unfold Lobby.Parse
  split
  · exact CreateChatRoom_chatRooms_mono _ _ _ _ h
  split
  · rw [ListChatRooms_eq]; exact h
  split
  · rw [JoinChatRoom_lobby]; exact h
  split
  · rw [LeaveChatRoom_lobby]; exact h
  split
  · rw [ChangeName_lobby]; exact h
  split
  · rw [Help_eq]; exact h
  split
  · exact h
  · rw [SendMessage_lobby]; exact h

theorem LobbyLeave_chatRooms (s : State) (c : ClientId) (now : Nat) :
    (Lobby.Leave s c now).lobby.chatRooms = s.lobby.chatRooms := by
  unfold Lobby.Leave
  split <;> simp

/-- A registered room whose expiry is after the clock reading of an event is
still registered after the event. -/
theorem step_keeps_unexpired {s : State} (hs : Reachable s) {e : Event} {env : Env}
    (hen : Enabled s e env) {name : String} {r : RoomId} (hr : (name, r) ∈ s.lobby.chatRooms)
    (hx : env.now < (s.room r).expiry) : (name, r) ∈ (step s e env).lobby.chatRooms := by
  have hi := hs.inv
  cases e with
  | join =>
    simp only [step, Lobby.Join]
    split
    · exact hr
    · exact hr
  | leave c =>
    simp only [step, LobbyLeave_chatRooms]
    exact hr
  | parse m => exact Parse_chatRooms_mono s m _ _ _ hr
  | delete d r0 =>
    have hr0 : Registered s r0 := hi.wakeRegistered d r0 hen.2.1
    simp only [step, Lobby.DeleteChatRoom]
    split
    · exact hr
    · next hexp =>
      simp only [Delete_lobby, Delete_room_name]
      refine (mem_mapDelete _ _ _).2 ⟨hr, ?_⟩
      intro hne
      simp only at hne
      obtain ⟨n0, hn0⟩ := hr0
      have h0 : (s.room r0).name = n0 := (hi.named n0 r0 hn0).1
      rw [h0] at hne
      subst hne
      have : r = r0 := registered_unique hi hr hn0
      subst this
      exact hexp hx

/-- C9. For a room whose expiry is after the clock reading `now`,
`DeleteChatRoom` changes neither the lobby, nor a chat room, nor a client,
nor an allocation counter: its only effect is one more wake-up, for the
current expiry of the room. Hence, in a run of the server, no event removes
from `lobby.chatRooms` a room whose expiry is after the clock reading of the
event. -/
theorem lazy_expiry_recheck (s : State) (r : RoomId) (now now2 : Nat)
    (h : now < (s.room r).expiry) :
    (Lobby.DeleteChatRoom s r now now2).lobby = s.lobby ∧
    (Lobby.DeleteChatRoom s r now now2).room = s.room ∧
    (Lobby.DeleteChatRoom s r now now2).client = s.client ∧
    (Lobby.DeleteChatRoom s r now now2).nextClient = s.nextClient ∧
    (Lobby.DeleteChatRoom s r now now2).nextRoom = s.nextRoom ∧
    (Lobby.DeleteChatRoom s r now now2).wakeups = s.wakeups ++ [((s.room r).expiry, r)] ∧
    (Reachable s → ∀ e env name r', Enabled s e env → (name, r') ∈ s.lobby.chatRooms →
      env.now < (s.room r').expiry → (name, r') ∈ (step s e env).lobby.chatRooms) := by
  have he : Lobby.DeleteChatRoom s r now now2 =
      { s with wakeups := s.wakeups ++ [((s.room r).expiry, r)] } := by
    unfold Lobby.DeleteChatRoom
    rw [if_pos h]
  rw [he]
  exact ⟨rfl, rfl, rfl, rfl, rfl, rfl, fun hs _ _ _ _ hen hr hx => step_keeps_unexpired hs hen hr hx⟩

/-- C9, in the short session: the wake-up of `general` fires at reading 5,
long before the expiry. -/
theorem lazy_expiry_recheck_witness :
    5 < ((run NewLobby session).room 0).expiry ∧
    (Lobby.DeleteChatRoom (run NewLobby session) 0 5 5).lobby = (run NewLobby session).lobby ∧
    (Lobby.DeleteChatRoom (run NewLobby session) 0 5 5).wakeups =
      (run NewLobby session).wakeups ++ [(((run NewLobby session).room 0).expiry, 0)] :=
  ⟨by decide, (lazy_expiry_recheck (run NewLobby session) 0 5 5 (by decide)).1,
    (lazy_expiry_recheck (run NewLobby session) 0 5 5 (by decide)).2.2.2.2.2.1⟩

/-! ## Disconnecting -/

theorem erase_eq_filter_ne {l : List ClientId} (h : l.Nodup) (c : ClientId) :
    l.erase c = l.filter (fun c' => c' ≠ c) := by
  rw [List.Nodup.erase_eq_filter h]
  apply List.filter_congr
  intro x _
  by_cases e : x = c <;> simp [e]

/-- The state that `Lobby.Leave(client)` leaves when it returns
(`LobbyLeave_refines`), for a client of `lobby.clients` in a run of the
server. When the client is in a room, `Lobby.Leave` sends the notice
`Notice: "<client name>" left the chat room.` to every member of that room,
appends it to the history and removes the client from the member list;
removes the client, and nobody else, from `lobby.clients`, keeping the other
clients in their order; and closes the client's `outgoing` channel. Afterwards the client is
not in `lobby.clients`, is a member of no registered room, and its
`chatRoom` is `nil`; the registry of rooms is as before. -/
theorem LobbyLeave_effect {s : State} (hs : Reachable s) (c : ClientId) (now : Nat)
    (ha : c ∈ s.lobby.clients) :
    (∀ r, (s.client c).chatRoom = some r →
      ((Lobby.Leave s c now).room r).clients = (s.room r).clients.filter (fun c' => c' ≠ c) ∧
      ((Lobby.Leave s c now).room r).messages =
        (s.room r).messages ++ ["Notice: \"" ++ (s.client c).name ++ "\" left the chat room.\n"] ∧
      (∀ c' ∈ (s.room r).clients, ((Lobby.Leave s c now).client c').outgoing =
        (s.client c').outgoing ++
          ["Notice: \"" ++ (s.client c).name ++ "\" left the chat room.\n"])) ∧
    (Lobby.Leave s c now).lobby.clients = s.lobby.clients.filter (fun c' => c' ≠ c) ∧
    (Lobby.Leave s c now).lobby.clients.length + 1 = s.lobby.clients.length ∧
    ((Lobby.Leave s c now).client c).outgoingClosed = true ∧
    c ∉ (Lobby.Leave s c now).lobby.clients ∧
    (∀ r, Registered (Lobby.Leave s c now) r → c ∉ ((Lobby.Leave s c now).room r).clients) ∧
    ((Lobby.Leave s c now).client c).chatRoom = none ∧
    (Lobby.Leave s c now).lobby.chatRooms = s.lobby.chatRooms := by
  have hi := hs.inv
  have hi' : Inv (Lobby.Leave s c now) := hi.LobbyLeave c now
  have hclients : (Lobby.Leave s c now).lobby.clients = s.lobby.clients.filter (fun c' => c' ≠ c) := by
    rw [LobbyLeave_clients, erase_eq_filter_ne hi.clientsNodup]
  have hnotin : c ∉ (Lobby.Leave s c now).lobby.clients := by
    rw [hclients]
    simp
  have hch : ((Lobby.Leave s c now).client c).chatRoom = none := by
    unfold Lobby.Leave
    split
    · simp [Leave_chatRoom_same]
    · next hnone => simpa using hnone
  have hlen : (Lobby.Leave s c now).lobby.clients.length + 1 = s.lobby.clients.length := by
    rw [LobbyLeave_clients, List.length_erase_of_mem ha]
    exact Nat.succ_pred_eq_of_pos (List.length_pos_of_mem ha)
  refine ⟨?_, hclients, hlen, ?_, hnotin, ?_, hch, LobbyLeave_chatRooms s c now⟩
  · intro r hr
    obtain ⟨hreg, hmem⟩ := hi.refMember c r hr
    have hroom : (Lobby.Leave s c now).room = (ChatRoom.Leave s r c now).room := by
      unfold Lobby.Leave
      rw [hr]
    refine ⟨?_, ?_, ?_⟩
    · rw [hroom, Leave_clients_same, erase_eq_filter_ne (hi.membersNodup r hreg)]
    · rw [hroom, Leave_messages_same, Sprintf_room_leave]
    · intro c' hc'
      have hout : ((Lobby.Leave s c now).client c').outgoing =
          ((ChatRoom.Leave s r c now).client c').outgoing := by
        unfold Lobby.Leave
        rw [hr]
        by_cases e : c' = c
        · subst e; simp
        · simp [Function.update_noteq e]
      rw [hout, Leave_outgoing, List.count_eq_one_of_mem (hi.membersNodup r hreg) hc',
        Sprintf_room_leave]
      rfl
  · unfold Lobby.Leave
    simp
  · intro r hreg hm
    exact hnotin (hi'.memberAdmitted r hreg c hm)

/-! ## Classification of the text of a message -/

theorem onlySent_send (s : State) (c : ClientId) (line : String) :
    OnlySent s (send s c line) c [line] := by
  refine ⟨rfl, rfl, rfl, rfl, rfl, ?_, ?_⟩
  · simp [ChatServer.send]
  · intro c' h
    simp [ChatServer.send, Function.update_noteq h]

theorem HasPrefix_iff (text word : String) :
    HasPrefix text word = true ↔ word.data <+: text.data := by
  unfold HasPrefix
  exact List.isPrefixOf_iff_prefix

/-- Two words that a text begins with are comparable. -/
theorem HasPrefix_comparable {text p q : String} (hp : HasPrefix text p = true)
    (hq : HasPrefix text q = true) : p.data <+: q.data ∨ q.data <+: p.data :=
  List.prefix_or_prefix_of_prefix ((HasPrefix_iff _ _).1 hp) ((HasPrefix_iff _ _).1 hq)

/-- A text begins with at most one of two incomparable words. -/
theorem HasPrefix_exclusive {text p q : String} (hp : HasPrefix text p = true)
    (h1 : ¬ p.data <+: q.data) (h2 : ¬ q.data <+: p.data) : HasPrefix text q = false := by
  cases hq : HasPrefix text q with
  | false => rfl
  | true => exact absurd (HasPrefix_comparable hp hq) (by simp [h1, h2])

theorem isCommand_false_iff (text : String) :
    isCommand text = false ↔
      (HasPrefix text CMD_CREATE = false ∧ HasPrefix text CMD_LIST = false ∧
        HasPrefix text CMD_JOIN = false ∧ HasPrefix text CMD_LEAVE = false ∧
        HasPrefix text CMD_NAME = false ∧ HasPrefix text CMD_HELP = false ∧
        HasPrefix text CMD_QUIT = false) := by
  simp [isCommand, commandWords]

theorem Parse_plain (s : State) (m : Message) (now now2 : Nat) (order : List String)
    (h : isCommand m.text = false) :
    Lobby.Parse s m now now2 order = Lobby.SendMessage s m now := by
  obtain ⟨h1, h2, h3, h4, h5, h6, h7⟩ := (isCommand_false_iff _).1 h
  unfold Lobby.Parse
  simp [h1, h2, h3, h4, h5, h6, h7]

theorem Parse_create (s : State) (m : Message) (now now2 : Nat) (order : List String)
    (h : HasPrefix m.text CMD_CREATE = true) :
    Lobby.Parse s m now now2 order =
      Lobby.CreateChatRoom s m.client
        (TrimSuffix (TrimPrefix m.text (CMD_CREATE ++ " ")) "\n") now := by
  unfold Lobby.Parse
  simp [h]

theorem Parse_list (s : State) (m : Message) (now now2 : Nat) (order : List String)
    (h : HasPrefix m.text CMD_LIST = true) :
    Lobby.Parse s m now now2 order = Lobby.ListChatRooms s m.client order := by
  have h1 := HasPrefix_exclusive (q := CMD_CREATE) h (by decide) (by decide)
  unfold Lobby.Parse
  simp [h, h1]

theorem Parse_join (s : State) (m : Message) (now now2 : Nat) (order : List String)
    (h : HasPrefix m.text CMD_JOIN = true) :
    Lobby.Parse s m now now2 order =
      Lobby.JoinChatRoom s m.client
        (TrimSuffix (TrimPrefix m.text (CMD_JOIN ++ " ")) "\n") now now2 := by
  have h1 := HasPrefix_exclusive (q := CMD_CREATE) h (by decide) (by decide)
  have h2 := HasPrefix_exclusive (q := CMD_LIST) h (by decide) (by decide)
  unfold Lobby.Parse
  simp [h, h1, h2]

theorem Parse_leave (s : State) (m : Message) (now now2 : Nat) (order : List String)
    (h : HasPrefix m.text CMD_LEAVE = true) :
    Lobby.Parse s m now now2 order = Lobby.LeaveChatRoom s m.client now := by
  have h1 := HasPrefix_exclusive (q := CMD_CREATE) h (by decide) (by decide)
  have h2 := HasPrefix_exclusive (q := CMD_LIST) h (by decide) (by decide)
  have h3 := HasPrefix_exclusive (q := CMD_JOIN) h (by decide) (by decide)
  unfold Lobby.Parse
  simp [h, h1, h2, h3]

theorem Parse_name (s : State) (m : Message) (now now2 : Nat) (order : List String)
    (h : HasPrefix m.text CMD_NAME = true) :
    Lobby.Parse s m now now2 order =
      Lobby.ChangeName s m.client
        (TrimSuffix (TrimPrefix m.text (CMD_NAME ++ " ")) "\n") now := by
  have h1 := HasPrefix_exclusive (q := CMD_CREATE) h (by decide) (by decide)
  have h2 := HasPrefix_exclusive (q := CMD_LIST) h (by decide) (by decide)
  have h3 := HasPrefix_exclusive (q := CMD_JOIN) h (by decide) (by decide)
  have h4 := HasPrefix_exclusive (q := CMD_LEAVE) h (by decide) (by decide)
  unfold Lobby.Parse
  simp [h, h1, h2, h3, h4]

theorem Parse_help (s : State) (m : Message) (now now2 : Nat) (order : List String)
    (h : HasPrefix m.text CMD_HELP = true) :
    Lobby.Parse s m now now2 order = Lobby.Help s m.client := by
  have h1 := HasPrefix_exclusive (q := CMD_CREATE) h (by decide) (by decide)
  have h2 := HasPrefix_exclusive (q := CMD_LIST) h (by decide) (by decide)
  have h3 := HasPrefix_exclusive (q := CMD_JOIN) h (by decide) (by decide)
  have h4 := HasPrefix_exclusive (q := CMD_LEAVE) h (by decide) (by decide)
  have h5 := HasPrefix_exclusive (q := CMD_NAME) h (by decide) (by decide)
  unfold Lobby.Parse
  simp [h, h1, h2, h3, h4, h5]

theorem Parse_quit (s : State) (m : Message) (now now2 : Nat) (order : List String)
    (h : HasPrefix m.text CMD_QUIT = true) :
    Lobby.Parse s m now now2 order = Client.Quit s m.client := by
  have h1 := HasPrefix_exclusive (q := CMD_CREATE) h (by decide) (by decide)
  have h2 := HasPrefix_exclusive (q := CMD_LIST) h (by decide) (by decide)
  have h3 := HasPrefix_exclusive (q := CMD_JOIN) h (by decide) (by decide)
  have h4 := HasPrefix_exclusive (q := CMD_LEAVE) h (by decide) (by decide)
  have h5 := HasPrefix_exclusive (q := CMD_NAME) h (by decide) (by decide)
  have h6 := HasPrefix_exclusive (q := CMD_HELP) h (by decide) (by decide)
  unfold Lobby.Parse
  simp [h, h1, h2, h3, h4, h5, h6]

/-! ## The argument of a command -/

theorem HasPrefix_append (p a : String) : HasPrefix (p ++ a) p = true := by
  rw [HasPrefix_iff, String.data_append]
  exact List.prefix_append _ _

theorem TrimPrefix_append (p a : String) : TrimPrefix (p ++ a) p = a := by
  unfold TrimPrefix
  rw [if_pos (HasPrefix_append p a)]
  apply String.ext
  simp [String.data_append]

theorem TrimPrefix_of_not (text p : String) (h : HasPrefix text p = false) :
    TrimPrefix text p = text := by
  unfold TrimPrefix
  simp [h]

theorem HasSuffix_newline_false {a : String} (h : '\n' ∉ a.data) : HasSuffix a "\n" = false := by
  cases hs : HasSuffix a "\n" with
  | false => rfl
  | true =>
    unfold HasSuffix at hs
    have hsuf : "\n".data <:+ a.data := List.isSuffixOf_iff_suffix.1 hs
    obtain ⟨pre, hpre⟩ := hsuf
    exact absurd (by rw [← hpre]; simp) h

theorem TrimSuffix_of_not (text p : String) (h : HasSuffix text p = false) :
    TrimSuffix text p = text := by
  unfold TrimSuffix
  simp [h]

/-- The argument of `word ++ " " ++ a`, for an `a` without a newline, is `a`. -/
theorem argument_spaced (p a : String) (h : '\n' ∉ a.data) :
    TrimSuffix (TrimPrefix (p ++ a) p) "\n" = a := by
  rw [TrimPrefix_append, TrimSuffix_of_not _ _ (HasSuffix_newline_false h)]

/-- The argument of a text without the word and its space, and without a
newline at its end, is the text. -/
theorem argument_unspaced (text p : String) (h : HasPrefix text p = false)
    (hn : HasSuffix text "\n" = false) : TrimSuffix (TrimPrefix text p) "\n" = text := by
  rw [TrimPrefix_of_not _ _ h, TrimSuffix_of_not _ _ hn]

theorem Parse_create_arg (s : State) (t : Nat) (c : ClientId) (a : String) (now now2 : Nat)
    (order : List String) (h : '\n' ∉ a.data) :
    Lobby.Parse s { time := t, client := c, text := "/create " ++ a } now now2 order =
      Lobby.CreateChatRoom s c a now := by
  have hp : HasPrefix ("/create " ++ a) CMD_CREATE = true := by
    rw [HasPrefix_iff, String.data_append]
    exact ⟨' ' :: a.data, rfl⟩
  rw [Parse_create _ _ _ _ _ hp]
  show Lobby.CreateChatRoom s c (TrimSuffix (TrimPrefix ("/create " ++ a) "/create ") "\n") now = _
  rw [argument_spaced _ _ h]

theorem Parse_join_arg (s : State) (t : Nat) (c : ClientId) (a : String) (now now2 : Nat)
    (order : List String) (h : '\n' ∉ a.data) :
    Lobby.Parse s { time := t, client := c, text := "/join " ++ a } now now2 order =
      Lobby.JoinChatRoom s c a now now2 := by
  have hp : HasPrefix ("/join " ++ a) CMD_JOIN = true := by
    rw [HasPrefix_iff, String.data_append]
    exact ⟨' ' :: a.data, rfl⟩
  rw [Parse_join _ _ _ _ _ hp]
  show Lobby.JoinChatRoom s c (TrimSuffix (TrimPrefix ("/join " ++ a) "/join ") "\n") now now2 = _
  rw [argument_spaced _ _ h]

theorem Parse_name_arg (s : State) (t : Nat) (c : ClientId) (a : String) (now now2 : Nat)
    (order : List String) (h : '\n' ∉ a.data) :
    Lobby.Parse s { time := t, client := c, text := "/name " ++ a } now now2 order =
      Lobby.ChangeName s c a now := by
  have hp : HasPrefix ("/name " ++ a) CMD_NAME = true := by
    rw [HasPrefix_iff, String.data_append]
    exact ⟨' ' :: a.data, rfl⟩
  rw [Parse_name _ _ _ _ _ hp]
  show Lobby.ChangeName s c (TrimSuffix (TrimPrefix ("/name " ++ a) "/name ") "\n") now = _
  rw [argument_spaced _ _ h]

/-! ## Errors of the commands -/

theorem SendMessage_roomless (s : State) (m : Message) (now : Nat)
    (h : (s.client m.client).chatRoom = none) :
    Lobby.SendMessage s m now = send s m.client ERROR_SEND := by
  unfold Lobby.SendMessage
  rw [h]

theorem LeaveChatRoom_roomless (s : State) (c : ClientId) (now : Nat)
    (h : (s.client c).chatRoom = none) :
    Lobby.LeaveChatRoom s c now = send s c ERROR_LEAVE := by
  unfold Lobby.LeaveChatRoom
  rw [h]

theorem JoinChatRoom_absent (s : State) (c : ClientId) (name : String) (now now2 : Nat)
    (h : name ∉ mapKeys s.lobby.chatRooms) :
    Lobby.JoinChatRoom s c name now now2 = send s c ERROR_JOIN := by
  unfold Lobby.JoinChatRoom
  rw [(mapGet_none_iff _ _).2 h]

/-- C11. The three errors of the commands reach the offending client only,
as one line, and change nothing else. (i) `SendMessage` for a client in no
room, and so `Parse` of a text that begins with no command word, sends
`Error: You cannot send messages in the lobby.`; (ii) `LeaveChatRoom` for a
client in no room, and so `Parse` of `/leave`, sends
`Error: You cannot leave the lobby.`; (iii) `JoinChatRoom` with a name that
is no key of `lobby.chatRooms`, and so `Parse` of `/join <name>`, sends
`Error: A chat room with that name does not exist.`, whether or not the
client is in a room. In each case the lobby, the chat rooms, the wake-ups,
every other client, and the name and `chatRoom` of the client itself are as
before. -/
theorem command_errors_local (s : State) (c : ClientId) (t : Nat) (now now2 : Nat)
    (order : List String) :
    (∀ text, (s.client c).chatRoom = none →
      OnlySent s (Lobby.SendMessage s { time := t, client := c, text := text } now) c
        ["Error: You cannot send messages in the lobby.\n"] ∧
      (isCommand text = false →
        OnlySent s (Lobby.Parse s { time := t, client := c, text := text } now now2 order) c
          ["Error: You cannot send messages in the lobby.\n"])) ∧
    ((s.client c).chatRoom = none →
      OnlySent s (Lobby.LeaveChatRoom s c now) c ["Error: You cannot leave the lobby.\n"] ∧
      OnlySent s (Lobby.Parse s { time := t, client := c, text := "/leave" } now now2 order) c
        ["Error: You cannot leave the lobby.\n"]) ∧
    (∀ name, name ∉ mapKeys s.lobby.chatRooms →
      OnlySent s (Lobby.JoinChatRoom s c name now now2) c
        ["Error: A chat room with that name does not exist.\n"] ∧
      ('\n' ∉ name.data →
        OnlySent s
          (Lobby.Parse s { time := t, client := c, text := "/join " ++ name } now now2 order) c
          ["Error: A chat room with that name does not exist.\n"])) := by
  refine ⟨?_, ?_, ?_⟩
  · intro text h
    have h1 : Lobby.SendMessage s { time := t, client := c, text := text } now =
        send s c ERROR_SEND := SendMessage_roomless s _ now h
    refine ⟨?_, ?_⟩
    · rw [h1]; exact onlySent_send s c _
    · intro hc
      rw [Parse_plain _ _ _ _ _ hc, h1]; exact onlySent_send s c _
  · intro h
    refine ⟨?_, ?_⟩
    · rw [LeaveChatRoom_roomless s c now h]; exact onlySent_send s c _
    · rw [Parse_leave s { time := t, client := c, text := "/leave" } now now2 order
        (show HasPrefix "/leave" CMD_LEAVE = true by decide)]
      show OnlySent s (Lobby.LeaveChatRoom s c now) c _
      rw [LeaveChatRoom_roomless s c now h]; exact onlySent_send s c _
  · intro name h
    refine ⟨?_, ?_⟩
    · rw [JoinChatRoom_absent s c name now now2 h]; exact onlySent_send s c _
    · intro hn
      rw [Parse_join_arg s t c name now now2 order hn, JoinChatRoom_absent s c name now now2 h]
      exact onlySent_send s c _

/-- C11, for client 0 alone in the lobby, and for client 0 of the short
session, a member of `general`, who asks for the missing room `nowhere`. -/
theorem command_errors_local_witness :
    ((run NewLobby arrival).client 0).chatRoom = none ∧ isCommand "hello" = false ∧
    OnlySent (run NewLobby arrival)
      (Lobby.Parse (run NewLobby arrival) { time := 0, client := 0, text := "hello" } 1 1 [])
      0 ["Error: You cannot send messages in the lobby.\n"] ∧
    OnlySent (run NewLobby arrival)
      (Lobby.Parse (run NewLobby arrival) { time := 0, client := 0, text := "/leave" } 1 1 [])
      0 ["Error: You cannot leave the lobby.\n"] ∧
    "nowhere" ∉ mapKeys (run NewLobby session).lobby.chatRooms ∧
    OnlySent (run NewLobby session)
      (Lobby.JoinChatRoom (run NewLobby session) 0 "nowhere" 1 1)
      0 ["Error: A chat room with that name does not exist.\n"] :=
  ⟨by decide, by decide,
    ((command_errors_local (run NewLobby arrival) 0 0 1 1 []).1 "hello" (by decide)).2 (by decide),
    ((command_errors_local (run NewLobby arrival) 0 0 1 1 []).2.1 (by decide)).2,
    by decide,
    ((command_errors_local (run NewLobby session) 0 0 1 1 []).2.2 "nowhere" (by decide)).1⟩

/-! ## Classification by `Parse` -/

theorem commandWords_exclusive :
    ∀ p ∈ commandWords, ∀ q ∈ commandWords,
      (p.data <+: q.data ∨ q.data <+: p.data) → p = q := by
  decide

/-- C12. `Parse` of a text that begins with none of the seven command words
is `SendMessage`; `Parse` of a text that begins with a command word is the
handler of that word, whatever the place of the word in the `switch`, for a
text begins with at most one of the words; and for an argument `a` without a
newline the texts `/create a`, `/join a` and `/name a` run `CreateChatRoom`,
`JoinChatRoom` and `ChangeName` with the argument `a`. -/
theorem parse_classification (s : State) (m : Message) (now now2 : Nat)
    (order : List String) :
    (isCommand m.text = false →
      Lobby.Parse s m now now2 order = Lobby.SendMessage s m now) ∧
    (HasPrefix m.text CMD_CREATE = true →
      Lobby.Parse s m now now2 order =
        Lobby.CreateChatRoom s m.client (TrimSuffix (TrimPrefix m.text "/create ") "\n") now) ∧
    (HasPrefix m.text CMD_LIST = true →
      Lobby.Parse s m now now2 order = Lobby.ListChatRooms s m.client order) ∧
    (HasPrefix m.text CMD_JOIN = true →
      Lobby.Parse s m now now2 order =
        Lobby.JoinChatRoom s m.client (TrimSuffix (TrimPrefix m.text "/join ") "\n") now now2) ∧
    (HasPrefix m.text CMD_LEAVE = true →
      Lobby.Parse s m now now2 order = Lobby.LeaveChatRoom s m.client now) ∧
    (HasPrefix m.text CMD_NAME = true →
      Lobby.Parse s m now now2 order =
        Lobby.ChangeName s m.client (TrimSuffix (TrimPrefix m.text "/name ") "\n") now) ∧
    (HasPrefix m.text CMD_HELP = true →
      Lobby.Parse s m now now2 order = Lobby.Help s m.client) ∧
    (HasPrefix m.text CMD_QUIT = true →
      Lobby.Parse s m now now2 order = Client.Quit s m.client) ∧
    (∀ p ∈ commandWords, ∀ q ∈ commandWords,
      HasPrefix m.text p = true → HasPrefix m.text q = true → p = q) ∧
    (∀ a : String, '\n' ∉ a.data →
      Lobby.Parse s { m with text := "/create " ++ a } now now2 order =
        Lobby.CreateChatRoom s m.client a now ∧
      Lobby.Parse s { m with text := "/join " ++ a } now now2 order =
        Lobby.JoinChatRoom s m.client a now now2 ∧
      Lobby.Parse s { m with text := "/name " ++ a } now now2 order =
        Lobby.ChangeName s m.client a now) := by
  refine ⟨Parse_plain s m now now2 order, Parse_create s m now now2 order,
    Parse_list s m now now2 order, Parse_join s m now now2 order,
    Parse_leave s m now now2 order, Parse_name s m now now2 order,
    Parse_help s m now now2 order, Parse_quit s m now now2 order, ?_, ?_⟩
  · intro p hp q hq h1 h2
    exact commandWords_exclusive p hp q hq (HasPrefix_comparable h1 h2)
  · intro a ha
    exact ⟨Parse_create_arg s m.time m.client a now now2 order ha,
      Parse_join_arg s m.time m.client a now now2 order ha,
      Parse_name_arg s m.time m.client a now now2 order ha⟩

/-- C12, in the short session: `hello` is a chat line, `/list` is a command,
and `/name bob` renames to `bob`. -/
theorem parse_classification_witness :
    isCommand "hello" = false ∧
    Lobby.Parse (run NewLobby session) { time := 0, client := 0, text := "hello" } 1 1 [] =
      Lobby.SendMessage (run NewLobby session) { time := 0, client := 0, text := "hello" } 1 ∧
    HasPrefix "/list" CMD_LIST = true ∧
    Lobby.Parse (run NewLobby session) { time := 0, client := 0, text := "/list" } 1 1 [] =
      Lobby.ListChatRooms (run NewLobby session) 0 [] ∧
    '\n' ∉ "bob".data ∧
    Lobby.Parse (run NewLobby session) { time := 0, client := 0, text := "/name " ++ "bob" } 1 1 [] =
      Lobby.ChangeName (run NewLobby session) 0 "bob" 1 :=
  ⟨by decide,
    (parse_classification (run NewLobby session) { time := 0, client := 0, text := "hello" }
      1 1 []).1 (by decide),
    by decide,
    (parse_classification (run NewLobby session) { time := 0, client := 0, text := "/list" }
      1 1 []).2.2.1 (by decide),
    by decide,
    ((parse_classification (run NewLobby session) { time := 0, client := 0, text := "hello" }
      1 1 []).2.2.2.2.2.2.2.2.2 "bob" (by decide)).2.2⟩

/-! ## Chat lines -/

theorem SendMessage_of_member (s : State) (m : Message) (r : RoomId) (now : Nat)
    (h : (s.client m.client).chatRoom = some r) :
    Lobby.SendMessage s m now = ChatRoom.Broadcast s r (Message.String s m) now := by
  unfold Lobby.SendMessage
  rw [h]

theorem Broadcast_client_of_not_member (s : State) (r : RoomId) (line : String) (now : Nat)
    {c : ClientId} (h : c ∉ (s.room r).clients) :
    (ChatRoom.Broadcast s r line now).client c = s.client c := by
  rw [Broadcast_eq]
  simp [List.count_eq_zero.2 h]

/-- C13. For a message of a client that is a member of the registered room
`r`, `SendMessage` renders the line `<time> - <name>: <text>` with the time
in the layout of `time.Kitchen` and a newline at the end, sends it once to
every member of `r`, the sender included, leaves every client outside `r` as
it was, and appends the line to the history of `r`; a text that begins with
no command word reaches `SendMessage` through `Parse`. -/
theorem chat_delivery {s : State} (hs : Reachable s) (m : Message) (r : RoomId)
    (now now2 : Nat) (order : List String) (hr : Registered s r)
    (hm : m.client ∈ (s.room r).clients) :
    Message.String s m =
      Kitchen m.time ++ " - " ++ (s.client m.client).name ++ ": " ++ m.text ++ "\n" ∧
    (∀ c ∈ (s.room r).clients, ((Lobby.SendMessage s m now).client c).outgoing =
      (s.client c).outgoing ++
        [Kitchen m.time ++ " - " ++ (s.client m.client).name ++ ": " ++ m.text ++ "\n"]) ∧
    (∀ c, c ∉ (s.room r).clients → (Lobby.SendMessage s m now).client c = s.client c) ∧
    ((Lobby.SendMessage s m now).room r).messages =
      (s.room r).messages ++
        [Kitchen m.time ++ " - " ++ (s.client m.client).name ++ ": " ++ m.text ++ "\n"] ∧
    (isCommand m.text = false →
      Lobby.Parse s m now now2 order = Lobby.SendMessage s m now) := by
  have hi := hs.inv
  have hc : (s.client m.client).chatRoom = some r := hi.memberRef r hr _ hm
  have hline : Message.String s m =
      Kitchen m.time ++ " - " ++ (s.client m.client).name ++ ": " ++ m.text ++ "\n" := by
    unfold Message.String
    rw [Sprintf_message]
  rw [SendMessage_of_member s m r now hc, hline]
  refine ⟨rfl, ?_, ?_, ?_, ?_⟩
  · intro c hcm
    rw [Broadcast_outgoing, List.count_eq_one_of_mem (hi.membersNodup r hr) hcm]
    rfl
  · intro c hcm
    exact Broadcast_client_of_not_member s r _ now hcm
  · rw [Broadcast_room_same]
  · intro hplain
    rw [Parse_plain s m now now2 order hplain, SendMessage_of_member s m r now hc, hline]

/-- C13, in the short session: client 0 and client 1, both named `Anonymous`,
are in `general`; client 0 sends `hello` at five past one in the afternoon and
client 1 receives the line. -/
theorem chat_delivery_witness :
    Reachable (run NewLobby session) ∧ Registered (run NewLobby session) 0 ∧
    0 ∈ ((run NewLobby session).room 0).clients ∧
    1 ∈ ((run NewLobby session).room 0).clients ∧
    Message.String (run NewLobby session)
      { time := 13 * Hour + 5 * Minute, client := 0, text := "hello" } =
        "1:05PM - Anonymous: hello\n" ∧
    ((Lobby.SendMessage (run NewLobby session)
        { time := 13 * Hour + 5 * Minute, client := 0, text := "hello" } 9).client 1).outgoing =
      ((run NewLobby session).client 1).outgoing ++
        [Kitchen (13 * Hour + 5 * Minute) ++ " - " ++ ((run NewLobby session).client 0).name ++
          ": " ++ "hello" ++ "\n"] :=
  ⟨reachable_session, ⟨"general", by decide⟩, by decide, by decide, by decide,
    (chat_delivery reachable_session { time := 13 * Hour + 5 * Minute, client := 0, text := "hello" }
      0 9 9 [] ⟨"general", by decide⟩ (by decide)).2.1 1 (by decide)⟩

/-! ## Creating a room -/

theorem Sprintf_personal_create (name : String) :
    Sprintf NOTICE_PERSONAL_CREATE [name] = "Notice: Created chat room \"" ++ name ++ "\".\n" := by
  apply String.ext
  simp [Sprintf, sprintfLoop, NOTICE_PERSONAL_CREATE, NOTICE_PREFIX]

theorem CreateChatRoom_of_absent (s : State) (c : ClientId) (name : String) (now : Nat)
    (h : name ∉ mapKeys s.lobby.chatRooms) :
    Lobby.CreateChatRoom s c name now =
      send { s with
          room := Function.update s.room s.nextRoom (NewChatRoom name now)
          nextRoom := s.nextRoom + 1
          lobby := { s.lobby with chatRooms := s.lobby.chatRooms ++ [(name, s.nextRoom)] }
          wakeups := s.wakeups ++ [(now + EXPIRY_TIME, s.nextRoom)] }
        c ("Notice: Created chat room \"" ++ name ++ "\".\n") := by
  unfold Lobby.CreateChatRoom
  rw [(mapGet_none_iff _ _).2 h]
  simp only [mapSet_of_absent h, Function.update_same, NewChatRoom, Sprintf_personal_create]

/-- C14. For a name that is no key of `lobby.chatRooms`, in a run of the
server, `CreateChatRoom(client, name)` at clock reading `now` adds the one
entry `name` to the map, for a new room named `name` with no member, an
empty history and the expiry `now + EXPIRY_TIME`; the earlier entries and
their rooms are as before; the creator receives
`Notice: Created chat room "<name>".` and is otherwise unchanged, so it is
not made a member and its `chatRoom` is as before; no other client changes;
and one wake-up is scheduled for the expiry of the new room. -/
theorem room_creation {s : State} (hs : Reachable s) (c : ClientId) (name : String)
    (now : Nat) (h : name ∉ mapKeys s.lobby.chatRooms) :
    (Lobby.CreateChatRoom s c name now).lobby.chatRooms =
      s.lobby.chatRooms ++ [(name, s.nextRoom)] ∧
    ¬ Registered s s.nextRoom ∧
    ((Lobby.CreateChatRoom s c name now).room s.nextRoom).name = name ∧
    ((Lobby.CreateChatRoom s c name now).room s.nextRoom).clients = [] ∧
    ((Lobby.CreateChatRoom s c name now).room s.nextRoom).messages = [] ∧
    ((Lobby.CreateChatRoom s c name now).room s.nextRoom).expiry = now + EXPIRY_TIME ∧
    (∀ r, Registered s r → (Lobby.CreateChatRoom s c name now).room r = s.room r) ∧
    (Lobby.CreateChatRoom s c name now).lobby.clients = s.lobby.clients ∧
    (Lobby.CreateChatRoom s c name now).client c =
      { s.client c with
        outgoing := (s.client c).outgoing ++
          ["Notice: Created chat room \"" ++ name ++ "\".\n"] } ∧
    (∀ c', c' ≠ c → (Lobby.CreateChatRoom s c name now).client c' = s.client c') ∧
    (Lobby.CreateChatRoom s c name now).wakeups =
      s.wakeups ++ [(now + EXPIRY_TIME, s.nextRoom)] := by
  have hi := hs.inv
  have hfresh : ∀ r, Registered s r → r ≠ s.nextRoom := by
    intro r ⟨n, hn⟩
    exact Nat.ne_of_lt (hi.named n r hn).2
  rw [CreateChatRoom_of_absent s c name now h]
  refine ⟨rfl, fun hreg => hfresh _ hreg rfl, ?_, ?_, ?_, ?_, ?_, rfl, ?_, ?_, rfl⟩
  · simp [send, NewChatRoom]
  · simp [send, NewChatRoom]
  · simp [send, NewChatRoom]
  · simp [send, NewChatRoom]
  · intro r hreg
    simp [send, Function.update_noteq (hfresh r hreg)]
  · simp [send]
  · intro c' hc'
    simp [send, Function.update_noteq hc']

/-- C14, in the short session: client 1 creates the room `ops` at reading 3. -/
theorem room_creation_witness :
    Reachable (run NewLobby session) ∧ "ops" ∉ mapKeys (run NewLobby session).lobby.chatRooms ∧
    (Lobby.CreateChatRoom (run NewLobby session) 1 "ops" 3).lobby.chatRooms =
      (run NewLobby session).lobby.chatRooms ++ [("ops", (run NewLobby session).nextRoom)] ∧
    ((Lobby.CreateChatRoom (run NewLobby session) 1 "ops" 3).room
      (run NewLobby session).nextRoom).expiry = 3 + EXPIRY_TIME :=
  ⟨reachable_session, by decide,
    (room_creation reachable_session 1 "ops" 3 (by decide)).1,
    (room_creation reachable_session 1 "ops" 3 (by decide)).2.2.2.2.2.1⟩

/-! ## Admission -/

/-- C15. On a lobby with fewer than `MAX_CLIENTS` clients `Lobby.Join(client)`
appends the client to `lobby.clients`, sends it the line
`Welcome to the server! Type "/help" to get a list of commands.` and nothing
else, and leaves `lobby.chatRooms`, the chat rooms and every other client as
they were. The client of a new connection, built by `NewClient`, is in no
room and is named `Anonymous`, so that after its admission the welcome line
is all it was sent. -/
theorem admission_below_capacity (s : State) (client : ClientId) (env : Env)
    (h : s.lobby.clients.length < MAX_CLIENTS) :
    (Lobby.Join s client).lobby.clients = s.lobby.clients ++ [client] ∧
    (Lobby.Join s client).lobby.chatRooms = s.lobby.chatRooms ∧
    (Lobby.Join s client).room = s.room ∧
    (Lobby.Join s client).client client =
      { s.client client with
        outgoing := (s.client client).outgoing ++
          ["Welcome to the server! Type \"/help\" to get a list of commands.\n"] } ∧
    (∀ c, c ≠ client → (Lobby.Join s client).client c = s.client c) ∧
    (step s Event.join env).lobby.clients = s.lobby.clients ++ [s.nextClient] ∧
    (step s Event.join env).client s.nextClient =
      { name := "Anonymous", chatRoom := none,
        outgoing := ["Welcome to the server! Type \"/help\" to get a list of commands.\n"],
        outgoingClosed := false, connClosed := false } ∧
    (∀ c, c ≠ s.nextClient → (step s Event.join env).client c = s.client c) ∧
    (step s Event.join env).lobby.chatRooms = s.lobby.chatRooms ∧
    (step s Event.join env).room = s.room := by
  have hj : ∀ t : State, t.lobby = s.lobby → ∀ c, Lobby.Join t c =
      send { t with lobby := { t.lobby with clients := t.lobby.clients ++ [c] } } c MSG_CONNECT := by
    intro t ht c
    unfold Lobby.Join
    rw [if_neg]
    rw [ht]
    exact Nat.not_le.2 h
  have hk : step s Event.join env =
      send { s with
          client := Function.update s.client s.nextClient NewClient
          nextClient := s.nextClient + 1
          lobby := { s.lobby with clients := s.lobby.clients ++ [s.nextClient] } }
        s.nextClient MSG_CONNECT :=
    hj { s with
      client := Function.update s.client s.nextClient NewClient
      nextClient := s.nextClient + 1 } rfl s.nextClient
  refine ⟨?_, ?_, ?_, ?_, ?_, ?_, ?_, ?_, ?_, ?_⟩
  · rw [hj s rfl]; rfl
  · rw [hj s rfl]; rfl
  · rw [hj s rfl]; rfl
  · rw [hj s rfl]; simp [send]; rfl
  · intro c hc
    rw [hj s rfl]; simp [send, Function.update_noteq hc]
  · rw [hk]; rfl
  · rw [hk]; simp [send, NewClient]; exact ⟨rfl, rfl⟩
  · intro c hc
    rw [hk]; simp [send, Function.update_noteq hc]
  · rw [hk]; rfl
  · rw [hk]; rfl

/-- C15, in the short session: a third connection is admitted as client 2. -/
theorem admission_below_capacity_witness :
    (run NewLobby session).lobby.clients.length < MAX_CLIENTS ∧
    (step (run NewLobby session) Event.join (envAt 4 [])).lobby.clients =
      (run NewLobby session).lobby.clients ++ [(run NewLobby session).nextClient] ∧
    (step (run NewLobby session) Event.join (envAt 4 [])).client (run NewLobby session).nextClient =
      { name := "Anonymous", chatRoom := none,
        outgoing := ["Welcome to the server! Type \"/help\" to get a list of commands.\n"],
        outgoingClosed := false, connClosed := false } :=
  ⟨by decide,
    (admission_below_capacity (run NewLobby session) 2 (envAt 4 []) (by decide)).2.2.2.2.2.1,
    (admission_below_capacity (run NewLobby session) 2 (envAt 4 []) (by decide)).2.2.2.2.2.2.1⟩

/-! ## Members are clients of the lobby -/

/-- C16. In every state of the server, whose `Parse` events come from clients
of `lobby.clients`, every member of every room registered in
`lobby.chatRooms` is in `lobby.clients`, and is there once. -/
theorem members_admitted {s : State} (hs : Reachable s) (r : RoomId) (c : ClientId)
    (hr : Registered s r) (hm : c ∈ (s.room r).clients) :
    c ∈ s.lobby.clients ∧ s.lobby.clients.count c = 1 := by
  have hi := hs.inv
  have ha : c ∈ s.lobby.clients := hi.memberAdmitted r hr c hm
  exact ⟨ha, List.count_eq_one_of_mem hi.clientsNodup ha⟩

/-- C16, in the short session, for client 1, a member of `general`. -/
theorem members_admitted_witness :
    Reachable (run NewLobby session) ∧ Registered (run NewLobby session) 0 ∧
    1 ∈ ((run NewLobby session).room 0).clients ∧ 1 ∈ (run NewLobby session).lobby.clients :=
  ⟨reachable_session, ⟨"general", by decide⟩, by decide,
    (members_admitted reachable_session 0 1 ⟨"general", by decide⟩ (by decide)).1⟩

/-! ## Listing the rooms -/

/-- C17. `ListChatRooms(client)`, for a `range` that yields the keys of
`lobby.chatRooms` in the order `order`, sends to the client an empty line,
`Chat Rooms:`, one line for each name of `order` and an empty line, that is
the number of rooms plus three lines; the names listed are the keys of the
map, each as often as it is a key, which is once in a run of the server;
nothing is sent to another client and nothing else changes. -/
theorem room_listing (s : State) (client : ClientId) (order : List String)
    (h : order.Perm (mapKeys s.lobby.chatRooms)) :
    OnlySent s (Lobby.ListChatRooms s client order) client
      (("\n" :: "Chat Rooms:\n" :: order.map (fun name => name ++ "\n")) ++ ["\n"]) ∧
    (("\n" :: "Chat Rooms:\n" :: order.map (fun name => name ++ "\n")) ++ ["\n"]).length =
      s.lobby.chatRooms.length + 3 ∧
    (∀ name, name ∈ order ↔ name ∈ mapKeys s.lobby.chatRooms) ∧
    (∀ name, order.count name = (mapKeys s.lobby.chatRooms).count name) ∧
    (Reachable s → ∀ name, name ∈ mapKeys s.lobby.chatRooms → order.count name = 1) := by
  refine ⟨?_, ?_, fun name => h.mem_iff, fun name => h.count_eq name, ?_⟩
  · rw [ListChatRooms_eq]
    refine ⟨rfl, rfl, rfl, rfl, rfl, ?_, ?_⟩
    · simp
    · intro c hc
      simp [Function.update_noteq hc]
  · have hl : order.length = s.lobby.chatRooms.length := by
      rw [h.length_eq, mapKeys, List.length_map]
    simp [hl]
  · intro hs name hn
    rw [h.count_eq name]
    exact List.count_eq_one_of_mem hs.inv.keysNodup hn

/-- C17, in the short session, with `dev` listed before `general`. -/
theorem room_listing_witness :
    ["dev", "general"].Perm (mapKeys (run NewLobby session).lobby.chatRooms) ∧
    OnlySent (run NewLobby session)
      (Lobby.ListChatRooms (run NewLobby session) 1 ["dev", "general"]) 1
      (("\n" :: "Chat Rooms:\n" :: ["dev", "general"].map (fun name => name ++ "\n")) ++ ["\n"]) :=
  ⟨by decide, (room_listing (run NewLobby session) 1 ["dev", "general"] (by decide)).1⟩

/-! ## Command words without a separator -/

/-- C18. A text that begins with `/create` is a create command for `Parse`,
never a chat line, with or without a space after the word. When the text
does not begin with `/create ` (the word and a space) and has no newline at
its end, as the lines read by `Client.Read`, nothing is stripped and
`CreateChatRoom` receives the whole text as the name of the room; the same
holds for `/join` with `JoinChatRoom` and for `/name` with `ChangeName`. So
`/createfoo` and `/create` ask for rooms named `/createfoo` and `/create`. -/
theorem word_without_separator (s : State) (m : Message) (now now2 : Nat)
    (order : List String) (hn : HasSuffix m.text "\n" = false) :
    (HasPrefix m.text "/create" = true → HasPrefix m.text "/create " = false →
      Lobby.Parse s m now now2 order = Lobby.CreateChatRoom s m.client m.text now) ∧
    (HasPrefix m.text "/join" = true → HasPrefix m.text "/join " = false →
      Lobby.Parse s m now now2 order = Lobby.JoinChatRoom s m.client m.text now now2) ∧
    (HasPrefix m.text "/name" = true → HasPrefix m.text "/name " = false →
      Lobby.Parse s m now now2 order = Lobby.ChangeName s m.client m.text now) ∧
    (HasPrefix m.text "/create" = true → isCommand m.text = true) ∧
    (m.text = "/createfoo" ∨ m.text = "/create" →
      m.text ∉ mapKeys s.lobby.chatRooms →
      (Lobby.Parse s m now now2 order).lobby.chatRooms =
        s.lobby.chatRooms ++ [(m.text, s.nextRoom)] ∧
      ((Lobby.Parse s m now now2 order).room s.nextRoom).name = m.text) := by
  have hcreate : HasPrefix m.text "/create" = true → HasPrefix m.text "/create " = false →
      Lobby.Parse s m now now2 order = Lobby.CreateChatRoom s m.client m.text now := by
    intro h1 h2
    rw [Parse_create s m now now2 order h1]
    show Lobby.CreateChatRoom s m.client (TrimSuffix (TrimPrefix m.text "/create ") "\n") now = _
    rw [argument_unspaced _ _ h2 hn]
  refine ⟨hcreate, ?_, ?_, ?_, ?_⟩
  · intro h1 h2
    rw [Parse_join s m now now2 order h1]
    show Lobby.JoinChatRoom s m.client (TrimSuffix (TrimPrefix m.text "/join ") "\n") now now2 = _
    rw [argument_unspaced _ _ h2 hn]
  · intro h1 h2
    rw [Parse_name s m now now2 order h1]
    show Lobby.ChangeName s m.client (TrimSuffix (TrimPrefix m.text "/name ") "\n") now = _
    rw [argument_unspaced _ _ h2 hn]
  · intro h1
    have h1' : HasPrefix m.text CMD_CREATE = true := h1
    simp [isCommand, commandWords, h1']
  · intro htext habs
    have hp : HasPrefix m.text "/create" = true ∧ HasPrefix m.text "/create " = false := by
      rcases htext with e | e <;> rw [e] <;> exact ⟨by decide, by decide⟩
    rw [hcreate hp.1 hp.2, CreateChatRoom_of_absent s m.client m.text now habs]
    exact ⟨rfl, by simp [send, NewChatRoom]⟩

/-- C18, for client 0 alone in the lobby, who sends `/createfoo`. -/
theorem word_without_separator_witness :
    HasSuffix "/createfoo" "\n" = false ∧ HasPrefix "/createfoo" "/create" = true ∧
    HasPrefix "/createfoo" "/create " = false ∧
    Lobby.Parse (run NewLobby arrival) { time := 0, client := 0, text := "/createfoo" } 1 1 [] =
      Lobby.CreateChatRoom (run NewLobby arrival) 0 "/createfoo" 1 ∧
    mapKeys (Lobby.Parse (run NewLobby arrival)
      { time := 0, client := 0, text := "/createfoo" } 1 1 []).lobby.chatRooms = ["/createfoo"] :=
  ⟨by decide, by decide, by decide,
    (word_without_separator (run NewLobby arrival) { time := 0, client := 0, text := "/createfoo" }
      1 1 [] (by decide)).1 (by decide) (by decide),
    by decide⟩

/-! ## Renaming in the lobby -/

theorem Sprintf_personal_name (name : String) :
    Sprintf NOTICE_PERSONAL_NAME [name] =
      "Notice: Changed name to \"\".\n%!(EXTRA string=" ++ name ++ ")" := by
  apply String.ext
  simp [Sprintf, sprintfLoop, extraOperands, NOTICE_PERSONAL_NAME, NOTICE_PREFIX]

/-- What `ChangeName` sends to a client in no room: the format
`NOTICE_PERSONAL_NAME` has no verb, so the new name is not put between the
quotes and `Sprintf` reports it as an extra operand. -/
theorem ChangeName_roomless_outgoing (s : State) (c : ClientId) (name : String) (now : Nat)
    (h : (s.client c).chatRoom = none) :
    ((Lobby.ChangeName s c name now).client c).outgoing =
      (s.client c).outgoing ++
        ["Notice: Changed name to \"\".\n%!(EXTRA string=" ++ name ++ ")"] ∧
    ((Lobby.ChangeName s c name now).client c).name = name := by
  unfold Lobby.ChangeName
  rw [h]
  simp [send, Sprintf_personal_name]

/-- C19, at a failing input: client 0, alone in the lobby and in no room,
takes the name `bob`. The line it is sent is
`Notice: Changed name to "".` followed, after the newline, by
`%!(EXTRA string=bob)`, not `Notice: Changed name to "bob".`; its name is
set to `bob`. -/
theorem roomless_rename_line :
    ((run NewLobby arrival).client 0).chatRoom = none ∧
    ((Lobby.ChangeName (run NewLobby arrival) 0 "bob" 1).client 0).outgoing =
      ((run NewLobby arrival).client 0).outgoing ++
        ["Notice: Changed name to \"\".\n%!(EXTRA string=bob)"] ∧
    ((Lobby.ChangeName (run NewLobby arrival) 0 "bob" 1).client 0).outgoing ≠
      ((run NewLobby arrival).client 0).outgoing ++ ["Notice: Changed name to \"bob\".\n"] ∧
    ((Lobby.ChangeName (run NewLobby arrival) 0 "bob" 1).client 0).name = "bob" := by
  decide

/-! ## The leave notice -/

theorem LeaveChatRoom_of_member (s : State) (c : ClientId) (r : RoomId) (now : Nat)
    (h : (s.client c).chatRoom = some r) :
    Lobby.LeaveChatRoom s c now = ChatRoom.Leave s r c now := by
  unfold Lobby.LeaveChatRoom
  rw [h]

theorem LobbyLeave_outgoing_of_member (s : State) (c : ClientId) (r : RoomId) (now : Nat)
    (h : (s.client c).chatRoom = some r) (c' : ClientId) :
    ((Lobby.Leave s c now).client c').outgoing =
      ((ChatRoom.Leave s r c now).client c').outgoing := by
  unfold Lobby.Leave
  rw [h]
  by_cases e : c' = c
  · subst e; simp
  · simp [Function.update_noteq e]

/-- The state that `ChatRoom.Leave(c)` leaves when it returns
(`RoomLeave_refines`). It broadcasts while `c` is still in the member
list: for a member `c` of the registered room `r`, the notice
`Notice: "<name of c>" left the chat room.` is sent once to every member of
`r` as the list stood before the removal, `c` itself included, and is
appended to the history of `r`; then `c` is removed. The three ways to
`ChatRoom.Leave` do the same: `LeaveChatRoom` is that call, `JoinChatRoom` on
a registered name makes that call before `ChatRoom.Join`, and `Lobby.Leave`
makes that call and closes `outgoing` of `c` after the notice was sent on
it. -/
theorem RoomLeave_effect {s : State} (hs : Reachable s) (c : ClientId) (r : RoomId)
    (now : Nat) (hr : Registered s r) (hm : c ∈ (s.room r).clients) :
    c ∈ ((ChatRoom.Broadcast s r
      ("Notice: \"" ++ (s.client c).name ++ "\" left the chat room.\n") now).room r).clients ∧
    (∀ c' ∈ (s.room r).clients, ((ChatRoom.Leave s r c now).client c').outgoing =
      (s.client c').outgoing ++
        ["Notice: \"" ++ (s.client c).name ++ "\" left the chat room.\n"]) ∧
    ((ChatRoom.Leave s r c now).client c).outgoing =
      (s.client c).outgoing ++
        ["Notice: \"" ++ (s.client c).name ++ "\" left the chat room.\n"] ∧
    ((ChatRoom.Leave s r c now).room r).messages =
      (s.room r).messages ++ ["Notice: \"" ++ (s.client c).name ++ "\" left the chat room.\n"] ∧
    ((ChatRoom.Leave s r c now).room r).clients = (s.room r).clients.filter (fun c' => c' ≠ c) ∧
    Lobby.LeaveChatRoom s c now = ChatRoom.Leave s r c now ∧
    (∀ name b now2, mapGet s.lobby.chatRooms name = some b →
      Lobby.JoinChatRoom s c name now now2 =
        ChatRoom.Join (ChatRoom.Leave s r c now) b c now2) ∧
    ((Lobby.Leave s c now).client c).outgoing =
      (s.client c).outgoing ++
        ["Notice: \"" ++ (s.client c).name ++ "\" left the chat room.\n"] ∧
    ((Lobby.Leave s c now).client c).outgoingClosed = true := by
  have hi := hs.inv
  have hc : (s.client c).chatRoom = some r := hi.memberRef r hr c hm
  have hall : ∀ c' ∈ (s.room r).clients, ((ChatRoom.Leave s r c now).client c').outgoing =
      (s.client c').outgoing ++
        ["Notice: \"" ++ (s.client c).name ++ "\" left the chat room.\n"] := by
    intro c' hc'
    rw [Leave_outgoing, List.count_eq_one_of_mem (hi.membersNodup r hr) hc', Sprintf_room_leave]
    rfl
  refine ⟨by simpa using hm, hall, hall c hm, ?_, ?_, LeaveChatRoom_of_member s c r now hc,
    ?_, ?_, ?_⟩
  · rw [Leave_messages_same, Sprintf_room_leave]
  · rw [Leave_clients_same, erase_eq_filter_ne (hi.membersNodup r hr)]
  · intro name b now2 hb
    exact JoinChatRoom_of_member now now2 hc hb
  · rw [LobbyLeave_outgoing_of_member s c r now hc, hall c hm]
  · unfold Lobby.Leave
    simp

/-! ## The methods with blocking sends refine the methods

A method that returns leaves the state that the method without the writer
goroutines computes. -/

theorem ok_of_bind {x : Except Live Live} {f : Live → Except Live Live} {b : Live}
    (h : (x >>= f) = Except.ok b) : ∃ a, x = Except.ok a ∧ f a = Except.ok b := by
  cases x with
  | error e => cases h
  | ok a => exact ⟨a, rfl, h⟩

theorem send_refines {l l' : Live} {c : ClientId} {m : String}
    (h : Blocking.send l c m = Except.ok l') : l'.state = send l.state c m := by
  unfold Blocking.send at h
  split at h
  · cases h
  · cases h; rfl

theorem foldlM_send_refines {α : Type} (f : α → ClientId) (g : α → String) (xs : List α) :
    ∀ l l' : Live, xs.foldlM (fun st x => Blocking.send st (f x) (g x)) l = Except.ok l' →
      l'.state = xs.foldl (fun st x => send st (f x) (g x)) l.state := by
  induction xs with
  | nil =>
    intro l l' h
    cases h; rfl
  | cons x xs ih =>
    intro l l' h
    rw [List.foldlM_cons] at h
    obtain ⟨a, h1, h2⟩ := ok_of_bind h
    rw [List.foldl_cons, ← send_refines h1]
    exact ih a l' h2

theorem Broadcast_refines {l l' : Live} {r : RoomId} {m : String} {now : Nat}
    (h : Blocking.ChatRoom.Broadcast l r m now = Except.ok l') :
    l'.state = ChatRoom.Broadcast l.state r m now := by
  unfold Blocking.ChatRoom.Broadcast at h
  exact foldlM_send_refines (fun c => c) (fun _ => m) _ _ _ h

theorem RoomJoin_refines {l l' : Live} {r : RoomId} {c : ClientId} {now : Nat}
    (h : Blocking.ChatRoom.Join l r c now = Except.ok l') :
    l'.state = ChatRoom.Join l.state r c now := by
  unfold Blocking.ChatRoom.Join at h
  obtain ⟨l2, h1, h2⟩ := ok_of_bind h
  have e2 := foldlM_send_refines (fun _ => c) (fun m => m) _ _ _ h1
  have e3 := Broadcast_refines h2
  rw [e3]
  unfold ChatRoom.Join
  simp only [e2]

theorem RoomLeave_refines {l l' : Live} {r : RoomId} {c : ClientId} {now : Nat}
    (h : Blocking.ChatRoom.Leave l r c now = Except.ok l') :
    l'.state = ChatRoom.Leave l.state r c now := by
  unfold Blocking.ChatRoom.Leave at h
  obtain ⟨l1, h1, h2⟩ := ok_of_bind h
  have e1 := Broadcast_refines h1
  cases h2
  unfold ChatRoom.Leave
  simp only [e1]

theorem RoomDelete_refines {l l' : Live} {r : RoomId} {now : Nat}
    (h : Blocking.ChatRoom.Delete l r now = Except.ok l') :
    l'.state = ChatRoom.Delete l.state r now := by
  unfold Blocking.ChatRoom.Delete at h
  obtain ⟨l1, h1, h2⟩ := ok_of_bind h
  have e1 := Broadcast_refines h1
  cases h2
  unfold ChatRoom.Delete
  simp only [e1]

theorem LobbyJoin_refines {l l' : Live} {c : ClientId}
    (h : Blocking.Lobby.Join l c = Except.ok l') : l'.state = Lobby.Join l.state c := by
  unfold Blocking.Lobby.Join at h
  unfold Lobby.Join
  split at h
  · next hfull => cases h; rw [if_pos hfull]; rfl
  · next hfull => rw [if_neg hfull]; exact send_refines h

theorem LobbyLeave_refines {l l' : Live} {c : ClientId} {now : Nat}
    (h : Blocking.Lobby.Leave l c now = Except.ok l') : l'.state = Lobby.Leave l.state c now := by
  unfold Blocking.Lobby.Leave at h
  obtain ⟨l1, h1, h2⟩ := ok_of_bind h
  cases h2
  unfold Lobby.Leave
  cases hc : (l.state.client c).chatRoom with
  | none =>
    rw [hc] at h1
    cases h1
    rfl
  | some r =>
    rw [hc] at h1
    simp only [RoomLeave_refines h1]

theorem DeleteChatRoom_refines {l l' : Live} {r : RoomId} {now now2 : Nat}
    (h : Blocking.Lobby.DeleteChatRoom l r now now2 = Except.ok l') :
    l'.state = Lobby.DeleteChatRoom l.state r now now2 := by
  unfold Blocking.Lobby.DeleteChatRoom at h
  unfold Lobby.DeleteChatRoom
  split at h
  · next hx => cases h; rw [if_pos hx]
  · next hx =>
    obtain ⟨l1, h1, h2⟩ := ok_of_bind h
    cases h2
    rw [if_neg hx]
    simp only [RoomDelete_refines h1]

theorem SendMessage_refines {l l' : Live} {m : Message} {now : Nat}
    (h : Blocking.Lobby.SendMessage l m now = Except.ok l') :
    l'.state = Lobby.SendMessage l.state m now := by
  unfold Blocking.Lobby.SendMessage at h
  unfold Lobby.SendMessage
  split at h
  · exact send_refines h
  · exact Broadcast_refines h

theorem CreateChatRoom_refines {l l' : Live} {c : ClientId} {name : String} {now : Nat}
    (h : Blocking.Lobby.CreateChatRoom l c name now = Except.ok l') :
    l'.state = Lobby.CreateChatRoom l.state c name now := by
  unfold Blocking.Lobby.CreateChatRoom at h
  unfold Lobby.CreateChatRoom
  split at h
  · exact send_refines h
  · exact send_refines h

theorem LeaveChatRoom_refines {l l' : Live} {c : ClientId} {now : Nat}
    (h : Blocking.Lobby.LeaveChatRoom l c now = Except.ok l') :
    l'.state = Lobby.LeaveChatRoom l.state c now := by
  unfold Blocking.Lobby.LeaveChatRoom at h
  unfold Lobby.LeaveChatRoom
  split at h
  · exact send_refines h
  · exact RoomLeave_refines h

theorem JoinChatRoom_refines {l l' : Live} {c : ClientId} {name : String} {now now2 : Nat}
    (h : Blocking.Lobby.JoinChatRoom l c name now now2 = Except.ok l') :
    l'.state = Lobby.JoinChatRoom l.state c name now now2 := by
  unfold Blocking.Lobby.JoinChatRoom at h
  unfold Lobby.JoinChatRoom
  split at h
  · exact send_refines h
  · obtain ⟨l1, h1, h2⟩ := ok_of_bind h
    have e1 : l1.state =
        (if (l.state.client c).chatRoom ≠ none then Lobby.LeaveChatRoom l.state c now
          else l.state) := by
      split at h1
      · next hne => rw [if_pos hne]; exact LeaveChatRoom_refines h1
      · next hne => rw [if_neg hne]; cases h1; rfl
    simp only [← e1]
    split at h2
    · exact RoomJoin_refines h2
    · cases h2; rfl

theorem ChangeName_refines {l l' : Live} {c : ClientId} {name : String} {now : Nat}
    (h : Blocking.Lobby.ChangeName l c name now = Except.ok l') :
    l'.state = Lobby.ChangeName l.state c name now := by
  unfold Blocking.Lobby.ChangeName at h
  obtain ⟨l1, h1, h2⟩ := ok_of_bind h
  cases h2
  unfold Lobby.ChangeName
  cases hc : (l.state.client c).chatRoom with
  | none =>
    rw [hc] at h1
    simp only [send_refines h1]
  | some r =>
    rw [hc] at h1
    simp only [Broadcast_refines h1]

theorem ListChatRooms_refines {l l' : Live} {c : ClientId} {order : List String}
    (h : Blocking.Lobby.ListChatRooms l c order = Except.ok l') :
    l'.state = Lobby.ListChatRooms l.state c order := by
  unfold Blocking.Lobby.ListChatRooms at h
  obtain ⟨l1, h1, h⟩ := ok_of_bind h
  obtain ⟨l2, h2, h⟩ := ok_of_bind h
  obtain ⟨l3, h3, h4⟩ := ok_of_bind h
  have e3 := foldlM_send_refines (fun _ => c) (fun name => Sprintf "%s\n" [name]) _ _ _ h3
  unfold Lobby.ListChatRooms
  rw [send_refines h4, e3, send_refines h2, send_refines h1]

theorem Help_refines {l l' : Live} {c : ClientId}
    (h : Blocking.Lobby.Help l c = Except.ok l') : l'.state = Lobby.Help l.state c := by
  unfold Blocking.Lobby.Help at h
  exact foldlM_send_refines (fun _ => c) (fun line => line) _ _ _ h

theorem Parse_refines {l l' : Live} {m : Message} {now now2 : Nat} {order : List String}
    (h : Blocking.Lobby.Parse l m now now2 order = Except.ok l') :
    l'.state = Lobby.Parse l.state m now now2 order := by
  unfold Blocking.Lobby.Parse at h
  unfold Lobby.Parse
  split at h
  · next hp => rw [if_pos hp]; exact CreateChatRoom_refines h
  next hp1 =>
  rw [if_neg hp1]
  split at h
  · next hp => rw [if_pos hp]; exact ListChatRooms_refines h
  next hp2 =>
  rw [if_neg hp2]
  split at h
  · next hp => rw [if_pos hp]; exact JoinChatRoom_refines h
  next hp3 =>
  rw [if_neg hp3]
  split at h
  · next hp => rw [if_pos hp]; exact LeaveChatRoom_refines h
  next hp4 =>
  rw [if_neg hp4]
  split at h
  · next hp => rw [if_pos hp]; exact ChangeName_refines h
  next hp5 =>
  rw [if_neg hp5]
  split at h
  · next hp => rw [if_pos hp]; exact Help_refines h
  next hp6 =>
  rw [if_neg hp6]
  split at h
  · next hp => rw [if_pos hp]; cases h; rfl
  · next hp7 => rw [if_neg hp7]; exact SendMessage_refines h

theorem event_refines {l l' : Live} {e : Event} {env : Env}
    (h : Blocking.step l e env = Except.ok l') : l'.state = step l.state e env := by
  cases e with
  | join => exact LobbyJoin_refines h
  | leave c => exact LobbyLeave_refines h
  | parse m => exact Parse_refines h
  | delete d r =>
    simp only [Blocking.step] at h
    obtain ⟨l1, h1, h2⟩ := ok_of_bind h
    cases h2
    simp only [step, DeleteChatRoom_refines h1]

theorem events_refine (es : List (Event × Env)) :
    ∀ l l' : Live, Blocking.run l es = Except.ok l' → l'.state = run l.state es := by
  induction es with
  | nil =>
    intro l l' h
    cases h; rfl
  | cons e es ih =>
    intro l l' h
    unfold Blocking.run at h
    rw [List.foldlM_cons] at h
    obtain ⟨a, h1, h2⟩ := ok_of_bind h
    unfold run
    rw [List.foldl_cons, ← event_refines h1]
    exact ih a l' h2

/-! ## When a broadcast returns -/

theorem foldlM_send_returns (m : String) (cs : List ClientId) :
    ∀ l : Live, cs.Nodup → (∀ c ∈ cs, l.writerEnded c = false) →
      ∃ l', cs.foldlM (fun st c => Blocking.send st c m) l = Except.ok l' := by
  induction cs with
  | nil =>
    intro l _ _
    exact ⟨l, rfl⟩
  | cons c cs ih =>
    intro l hn hw
    rw [List.nodup_cons] at hn
    have hc : l.writerEnded c = false := hw c (List.mem_cons_self _ _)
    rw [List.foldlM_cons]
    have hs : Blocking.send l c m = Except.ok
        { state := send l.state c m
          writerEnded := Function.update l.writerEnded c (l.state.client c).connClosed } := by
      unfold Blocking.send
      simp [hc]
    rw [hs]
    apply ih _ hn.2
    intro c' hc'
    have hne : c' ≠ c := fun e => hn.1 (e ▸ hc')
    simp only [Function.update_noteq hne]
    exact hw c' (List.mem_cons_of_mem _ hc')

/-- A broadcast in a room returns when the writer goroutine of every member
still runs and no member is listed twice. -/
theorem Broadcast_returns (l : Live) (r : RoomId) (m : String) (now : Nat)
    (hn : (l.state.room r).clients.Nodup)
    (hw : ∀ c ∈ (l.state.room r).clients, l.writerEnded c = false) :
    ∃ l', Blocking.ChatRoom.Broadcast l r m now = Except.ok l' := by
  unfold Blocking.ChatRoom.Broadcast
  apply foldlM_send_returns m _ _
  · simpa using hn
  · simpa using hw

/-- In a run of the server `Lobby.Leave(client)` returns, and then leaves the
state of `LobbyLeave_effect`, when the writer goroutine of every member of
the room of the client still runs. -/
theorem LobbyLeave_returns (l : Live) (hs : Reachable l.state) (c : ClientId) (now : Nat)
    (hw : ∀ r, (l.state.client c).chatRoom = some r →
      ∀ c' ∈ (l.state.room r).clients, l.writerEnded c' = false) :
    ∃ l', Blocking.Lobby.Leave l c now = Except.ok l' ∧
      l'.state = Lobby.Leave l.state c now ∧ l'.writerEnded c = true := by
  have key : ∃ l', Blocking.Lobby.Leave l c now = Except.ok l' ∧ l'.writerEnded c = true := by
    unfold Blocking.Lobby.Leave
    cases hc : (l.state.client c).chatRoom with
    | none => exact ⟨_, rfl, by simp⟩
    | some r =>
      have hreg := (hs.inv.refMember c r hc).1
      obtain ⟨l1, h1⟩ := Broadcast_returns l r
        (Sprintf NOTICE_ROOM_LEAVE [(l.state.client c).name]) now
        (hs.inv.membersNodup r hreg) (hw r hc)
      simp only [Blocking.ChatRoom.Leave, h1]
      exact ⟨_, rfl, by simp⟩
  obtain ⟨l', h1, h2⟩ := key
  exact ⟨l', h1, LobbyLeave_refines h1, h2⟩

/-! ## A disconnect that never ends -/

/-- C10, at a failing input. Clients 0 and 1 are in `general`; client 1 sends
`/quit`, which closes its connection, and client 0 says `hello`, whose write
fails in `Client.Write` of client 1, so that goroutine returns. All these
events are enabled and return. The `Leave` event of client 1, which is
enabled, then never returns: `Lobby.Leave` is blocked in the send of the
leave notice to client 1. In the state in which it is blocked client 1 is
still in `lobby.clients` and in the member list of `general`, its `chatRoom`
is still `general`, and its `outgoing` is not closed. -/
theorem leave_blocks_after_quit :
    allEnabled NewLobby quitSession = true ∧
    returned (Blocking.run Blocking.NewLobby quitSession) = true ∧
    ((lastState (Blocking.run Blocking.NewLobby quitSession)).client 1).connClosed = true ∧
    Enabled (lastState (Blocking.run Blocking.NewLobby quitSession)) (Event.leave 1) (envAt 1 []) ∧
    returned (Blocking.run Blocking.NewLobby (quitSession ++ [(Event.leave 1, envAt 1 [])])) =
      false ∧
    1 ∈ (lastState (Blocking.run Blocking.NewLobby
      (quitSession ++ [(Event.leave 1, envAt 1 [])]))).lobby.clients ∧
    1 ∈ ((lastState (Blocking.run Blocking.NewLobby
      (quitSession ++ [(Event.leave 1, envAt 1 [])]))).room 0).clients ∧
    ((lastState (Blocking.run Blocking.NewLobby
      (quitSession ++ [(Event.leave 1, envAt 1 [])]))).client 1).chatRoom = some 0 ∧
    ((lastState (Blocking.run Blocking.NewLobby
      (quitSession ++ [(Event.leave 1, envAt 1 [])]))).client 1).outgoingClosed = false := by
  decide

/-- C20, at a failing input, the state of the server after `quitSession`:
client 1 is a member of `general`, its connection is closed and its
`Client.Write` has returned. `ChatRoom.Leave` of client 1 appends the notice
`Notice: "Anonymous" left the chat room.` to the history and sends it to
client 0, and is then blocked for ever in the send to client 1, the leaver:
nothing more is sent on `outgoing` of client 1, and client 1 is not removed
from the member list. `LeaveChatRoom`, `JoinChatRoom` and `Lobby.Leave` of
client 1, the three callers, are blocked with it. -/
theorem leave_notice_blocks_at_leaver :
    allEnabled NewLobby quitSession = true ∧
    returned (Blocking.run Blocking.NewLobby quitSession) = true ∧
    1 ∈ ((lastState (Blocking.run Blocking.NewLobby quitSession)).room 0).clients ∧
    returned (Blocking.run Blocking.NewLobby quitSession >>=
      fun l => Blocking.ChatRoom.Leave l 0 1 1) = false ∧
    ((lastState (Blocking.run Blocking.NewLobby quitSession >>=
      fun l => Blocking.ChatRoom.Leave l 0 1 1)).room 0).messages =
      ((lastState (Blocking.run Blocking.NewLobby quitSession)).room 0).messages ++
        ["Notice: \"Anonymous\" left the chat room.\n"] ∧
    ((lastState (Blocking.run Blocking.NewLobby quitSession >>=
      fun l => Blocking.ChatRoom.Leave l 0 1 1)).client 0).outgoing =
      ((lastState (Blocking.run Blocking.NewLobby quitSession)).client 0).outgoing ++
        ["Notice: \"Anonymous\" left the chat room.\n"] ∧
    ((lastState (Blocking.run Blocking.NewLobby quitSession >>=
      fun l => Blocking.ChatRoom.Leave l 0 1 1)).client 1).outgoing =
      ((lastState (Blocking.run Blocking.NewLobby quitSession)).client 1).outgoing ∧
    1 ∈ ((lastState (Blocking.run Blocking.NewLobby quitSession >>=
      fun l => Blocking.ChatRoom.Leave l 0 1 1)).room 0).clients ∧
    returned (Blocking.run Blocking.NewLobby quitSession >>=
      fun l => Blocking.Lobby.LeaveChatRoom l 1 1) = false ∧
    returned (Blocking.run Blocking.NewLobby quitSession >>=
      fun l => Blocking.Lobby.JoinChatRoom l 1 "dev" 1 1) = false ∧
    returned (Blocking.run Blocking.NewLobby quitSession >>=
      fun l => Blocking.Lobby.Leave l 1 1) = false := by
  decide!

end ChatServer
